import Mathlib

/-!
The configuration header `waterbox/nyma/common/config.h`

The header is a straight-line sequence of C preprocessor directives: `#undef NAME`,
`#define NAME body`, and a handful of `#ifndef` / `#if defined` blocks.  Processing it maps
the macro environment in force before the header (command-line `-D` options, compiler
predefines, earlier headers) to the macro environment in force after it.

The embedding below keeps the directives in source order, with the source line of each one,
and gives them the semantics of the preprocessor: `#undef` removes a binding, `#define`
installs one (a later definition replaces an earlier one, as gcc and clang do after their
redefinition diagnostic), and a conditional block runs the branch selected by its test in
the environment reached at the test.
-/

namespace ConfigH

/-- The macro environment: `none` when the name is not defined, `some body` when it is defined
with the replacement text `body` (`""` for an empty replacement list). -/
abbrev MacroEnv := String → Option String

/-- The tests used by the conditional blocks of the header: `#if defined N` / `#ifndef N`. -/
inductive Cond where
  | isDefined (name : String)
  | notDefined (name : String)
  deriving Repr

/-- A preprocessor directive of the header.  `ifBlock c thn els` is
`#if c` / `thn` / `#else` / `els` / `#endif`; an absent `#else` part is `[]`. -/
inductive Directive where
  | undefine (name : String)
  | define (name : String) (body : String)
  | ifBlock (c : Cond) (thn : List Directive) (els : List Directive)

/-- The environment with `name` bound to `v` and every other name unchanged. -/
def MacroEnv.bind (env : MacroEnv) (name : String) (v : Option String) : MacroEnv :=
  fun m => if m = name then v else env m

/-- The environment in which no name is defined. -/
def emptyEnv : MacroEnv := fun _ => none

/-- Evaluation of a block test in an environment. -/
def Cond.holds : Cond → MacroEnv → Bool
  | .isDefined n, env => (env n).isSome
  | .notDefined n, env => (env n).isNone

/-- The name a block test inspects. -/
def Cond.name : Cond → String
  | .isDefined n => n
  | .notDefined n => n

mutual
/-- Effect of one directive on the macro environment. -/
def Directive.run : Directive → MacroEnv → MacroEnv
  | .undefine n, env => env.bind n none
  | .define n b, env => env.bind n (some b)
  | .ifBlock c thn els, env => if c.holds env then runList thn env else runList els env
/-- Effect of a sequence of directives, in order. -/
def runList : List Directive → MacroEnv → MacroEnv
  | [], env => env
  | d :: ds, env => runList ds (d.run env)
end

/-- Directives of config.h, lines 1-208: AC_APPLE_UNIVERSAL_BUILD .. HAVE_ICONV. -/
def hostFacts : List Directive := [
  .undefine "AC_APPLE_UNIVERSAL_BUILD",  -- line 4
  .undefine "ARCH_POWERPC",  -- line 7
  .define "ARCH_X86" "1",  -- line 10
  .undefine "ARCH_X86_32",  -- line 13
  .define "ARCH_X86_64" "1",  -- line 16
  .undefine "CRAY_STACKSEG_END",  -- line 21
  .undefine "C_ALLOCA",  -- line 24
  .undefine "DOS",  -- line 27
  .define "ENABLE_LIBXXX_MODE" "1",  -- line 30
  .undefine "ENABLE_NLS",  -- line 34
  .undefine "HAVE_ACCEPT",  -- line 37
  .undefine "HAVE_ALLOCA",  -- line 40
  .undefine "HAVE_ALLOCA_H",  -- line 44
  .undefine "HAVE_ALSA",  -- line 47
  .undefine "HAVE_ALTIVEC_H",  -- line 50
  .undefine "HAVE_ARGZ_COUNT",  -- line 53
  .undefine "HAVE_ARGZ_H",  -- line 56
  .undefine "HAVE_ARGZ_NEXT",  -- line 59
  .undefine "HAVE_ARGZ_STRINGIFY",  -- line 62
  .undefine "HAVE_ASPRINTF",  -- line 65
  .undefine "HAVE_BIND",  -- line 68
  .define "HAVE_BUILTIN_EXPECT" "1",  -- line 71
  .undefine "HAVE_CFLOCALECOPYCURRENT",  -- line 75
  .undefine "HAVE_CFPREFERENCESCOPYAPPVALUE",  -- line 79
  .undefine "HAVE_CLOCK_GETTIME",  -- line 82
  .undefine "HAVE_CLOSE",  -- line 85
  .undefine "HAVE_CONNECT",  -- line 88
  .undefine "HAVE_DCGETTEXT",  -- line 92
  .undefine "HAVE_DECL_FEOF_UNLOCKED",  -- line 96
  .undefine "HAVE_DECL_FGETS_UNLOCKED",  -- line 100
  .undefine "HAVE_DECL_GETC_UNLOCKED",  -- line 104
  .undefine "HAVE_DECL__SNPRINTF",  -- line 108
  .undefine "HAVE_DECL__SNWPRINTF",  -- line 112
  .undefine "HAVE_DIRECTSOUND",  -- line 115
  .undefine "HAVE_DUP2",  -- line 118
  .undefine "HAVE_EXTERNAL_LIBZSTD",  -- line 121
  .undefine "HAVE_EXTERNAL_LZO2",  -- line 124
  .undefine "HAVE_EXTERNAL_MPCDEC",  -- line 127
  .undefine "HAVE_EXTERNAL_TREMOR",  -- line 130
  .undefine "HAVE_EXTERNAL_TRIO",  -- line 133
  .undefine "HAVE_FCNTL",  -- line 136
  .undefine "HAVE_FCNTL_H",  -- line 139
  .undefine "HAVE_FENV_H",  -- line 142
  .undefine "HAVE_FORK",  -- line 145
  .undefine "HAVE_FREEADDRINFO",  -- line 148
  .undefine "HAVE_FSTAT64",  -- line 151
  .undefine "HAVE_FTRUNCATE64",  -- line 154
  .undefine "HAVE_FWPRINTF",  -- line 157
  .undefine "HAVE_GAI_STRERROR",  -- line 160
  .undefine "HAVE_GETADDRINFO",  -- line 163
  .undefine "HAVE_GETCWD",  -- line 166
  .undefine "HAVE_GETEGID",  -- line 169
  .undefine "HAVE_GETENV",  -- line 172
  .undefine "HAVE_GETEUID",  -- line 175
  .undefine "HAVE_GETGID",  -- line 178
  .undefine "HAVE_GETHOSTBYADDR",  -- line 181
  .undefine "HAVE_GETHOSTBYNAME",  -- line 184
  .undefine "HAVE_GETPAGESIZE",  -- line 187
  .undefine "HAVE_GETPWUID",  -- line 190
  .undefine "HAVE_GETSOCKOPT",  -- line 193
  .undefine "HAVE_GETTEXT",  -- line 196
  .undefine "HAVE_GETTIMEOFDAY",  -- line 199
  .undefine "HAVE_GETUID",  -- line 202
  .undefine "HAVE_GMTIME_R",  -- line 205
  .undefine "HAVE_ICONV"  -- line 208
]

/-- Directives of config.h, lines 209-426: HAVE_INLINEASM_AVX .. HAVE_SOCKET. -/
def hostFacts2 : List Directive := [
  .define "HAVE_INLINEASM_AVX" "1",  -- line 211
  .define "HAVE_INTMAX_T" "1",  -- line 214
  .define "HAVE_INTTYPES_H" "1",  -- line 217
  .define "HAVE_INTTYPES_H_WITH_UINTMAX" "1",  -- line 221
  .undefine "HAVE_JACK",  -- line 224
  .undefine "HAVE_LANGINFO_CODESET",  -- line 227
  .undefine "HAVE_LC_MESSAGES",  -- line 230
  .undefine "HAVE_LIBASOUND",  -- line 233
  .undefine "HAVE_LIBFLAC",  -- line 236
  .undefine "HAVE_LIBMPCDEC",  -- line 239
  .undefine "HAVE_LIBTRIO",  -- line 242
  .undefine "HAVE_LIBVORBISIDEC",  -- line 245
  .define "HAVE_LIMITS_H" "1",  -- line 248
  .undefine "HAVE_LINUX_JOYSTICK",  -- line 251
  .undefine "HAVE_LISTEN",  -- line 254
  .undefine "HAVE_LOCALTIME_R",  -- line 257
  .define "HAVE_LONG_LONG_INT" "1",  -- line 260
  .undefine "HAVE_LSEEK64",  -- line 263
  .undefine "HAVE_MADVISE",  -- line 266
  .undefine "HAVE_MBRTOWC",  -- line 269
  .define "HAVE_MEMCMP" "1",  -- line 272
  .define "HAVE_MEMCPY" "1",  -- line 275
  .define "HAVE_MEMMOVE" "1",  -- line 278
  .define "HAVE_MEMORY_H" "1",  -- line 281
  .define "HAVE_MEMPCPY" "1",  -- line 284
  .define "HAVE_MEMSET" "1",  -- line 287
  .define "HAVE_MKDIR" "1",  -- line 290
  .undefine "HAVE_MMAP",  -- line 293
  .undefine "HAVE_MUNMAP",  -- line 296
  .undefine "HAVE_NANOSLEEP",  -- line 299
  .undefine "HAVE_NEARBYINT",  -- line 302
  .undefine "HAVE_NEARBYINTF",  -- line 305
  .undefine "HAVE_NEWLOCALE",  -- line 308
  .undefine "HAVE_OPENBSD_AUDIO",  -- line 311
  .undefine "HAVE_OSSDSP",  -- line 314
  .undefine "HAVE_PIPE",  -- line 317
  .undefine "HAVE_POLL",  -- line 320
  .define "HAVE_POSIX_PRINTF" "1",  -- line 323
  .undefine "HAVE_POSIX_SOCKETS",  -- line 326
  .undefine "HAVE_PTHREAD_CONDATTR_SETCLOCK",  -- line 329
  .undefine "HAVE_PTHREAD_COND_TIMEDWAIT_RELATIVE_NP",  -- line 333
  .undefine "HAVE_PTHREAD_CREATE",  -- line 336
  .undefine "HAVE_PTHREAD_GETAFFINITY_NP",  -- line 339
  .undefine "HAVE_PTHREAD_H",  -- line 342
  .undefine "HAVE_PTHREAD_MUTEX_RECURSIVE",  -- line 345
  .undefine "HAVE_PTHREAD_NP_H",  -- line 348
  .undefine "HAVE_PTHREAD_RWLOCK",  -- line 351
  .undefine "HAVE_PTHREAD_SETAFFINITY_NP",  -- line 354
  .undefine "HAVE_PTHREAD_SETNAME_NP",  -- line 357
  .undefine "HAVE_PTHREAD_SET_NAME_NP",  -- line 360
  .undefine "HAVE_PUTENV",  -- line 363
  .undefine "HAVE_RECV",  -- line 366
  .undefine "HAVE_RINT",  -- line 369
  .undefine "HAVE_RINTF",  -- line 372
  .undefine "HAVE_ROUND",  -- line 375
  .undefine "HAVE_SCHED_H",  -- line 378
  .undefine "HAVE_SDL",  -- line 381
  .undefine "HAVE_SELECT",  -- line 384
  .undefine "HAVE_SEM_CLOCKWAIT",  -- line 387
  .undefine "HAVE_SEM_CLOCKWAIT_NP",  -- line 390
  .undefine "HAVE_SEM_INIT",  -- line 393
  .undefine "HAVE_SEM_TIMEDWAIT",  -- line 396
  .undefine "HAVE_SEM_TIMEDWAIT_MONOTONIC",  -- line 399
  .undefine "HAVE_SEND",  -- line 402
  .undefine "HAVE_SETENV",  -- line 405
  .undefine "HAVE_SETLOCALE",  -- line 408
  .undefine "HAVE_SETSOCKOPT",  -- line 411
  .undefine "HAVE_SIGACTION",  -- line 414
  .undefine "HAVE_SIGLONGJMP",  -- line 417
  .undefine "HAVE_SIGNAL",  -- line 420
  .undefine "HAVE_SNPRINTF",  -- line 423
  .undefine "HAVE_SOCKET"  -- line 426
]

/-- Directives of config.h, lines 427-628: HAVE_STDDEF_H .. SIZEOF___INT64. -/
def hostFacts3 : List Directive := [
  .define "HAVE_STDDEF_H" "1",  -- line 429
  .define "HAVE_STDINT_H" "1",  -- line 432
  .define "HAVE_STDINT_H_WITH_UINTMAX" "1",  -- line 436
  .define "HAVE_STDLIB_H" "1",  -- line 439
  .define "HAVE_STPCPY" "1",  -- line 442
  .define "HAVE_STRCASECMP" "1",  -- line 445
  .define "HAVE_STRDUP" "1",  -- line 448
  .undefine "HAVE_STRERROR",  -- line 451
  .undefine "HAVE_STRERROR_R",  -- line 454
  .define "HAVE_STRINGS_H" "1",  -- line 457
  .define "HAVE_STRING_H" "1",  -- line 460
  .define "HAVE_STRNLEN" "1",  -- line 463
  .define "HAVE_STRTOUL" "1",  -- line 466
  .undefine "HAVE_SYS_PARAM_H",  -- line 469
  .undefine "HAVE_SYS_STAT_H",  -- line 472
  .undefine "HAVE_SYS_TYPES_H",  -- line 475
  .undefine "HAVE_TSEARCH",  -- line 478
  .define "HAVE_UINTMAX_T" "1",  -- line 481
  .undefine "HAVE_UNISTD_H",  -- line 484
  .define "HAVE_UNSIGNED_LONG_LONG_INT" "1",  -- line 487
  .undefine "HAVE_USELOCALE",  -- line 490
  .undefine "HAVE_USLEEP",  -- line 493
  .undefine "HAVE_VISIBILITY",  -- line 497
  .undefine "HAVE_WASAPI",  -- line 500
  .define "HAVE_WCHAR_T" "1",  -- line 503
  .define "HAVE_WCRTOMB" "1",  -- line 506
  .define "HAVE_WCSLEN" "1",  -- line 509
  .define "HAVE_WCSNLEN" "1",  -- line 512
  .undefine "HAVE_WINT_T",  -- line 515
  .undefine "HAVE_WORKING_O_NOATIME",  -- line 518
  .undefine "HAVE_WORKING_O_NOFOLLOW",  -- line 521
  .undefine "HAVE__LONGJMP",  -- line 524
  .undefine "HAVE__MKDIR",  -- line 527
  .undefine "HAVE___FSETLOCKING",  -- line 530
  .undefine "HAVE___MINGW_GET_CRT_INFO",  -- line 533
  .define "ICONV_CONST" "",  -- line 536
  .undefine "INTDIV0_RAISES_SIGFPE",  -- line 539
  .define "LSB_FIRST" "1",  -- line 542
  .undefine "MDFN_ENABLE_DEV_BUILD",  -- line 546
  .define "MEDNAFEN_VERSION" "\"1.29.0\"",  -- line 549
  .define "MEDNAFEN_VERSION_NUMERIC" "0x00102900",  -- line 552
  .undefine "MINILZO_HAVE_CONFIG_H",  -- line 555
  .undefine "MKDIR_TAKES_ONE_ARG",  -- line 558
  .undefine "MPC_FIXED_POINT",  -- line 561
  .undefine "MSB_FIRST",  -- line 564
  .undefine "PACKAGE",  -- line 567
  .undefine "PACKAGE_BUGREPORT",  -- line 570
  .undefine "PACKAGE_NAME",  -- line 573
  .undefine "PACKAGE_STRING",  -- line 576
  .undefine "PACKAGE_TARNAME",  -- line 579
  .undefine "PACKAGE_URL",  -- line 582
  .undefine "PACKAGE_VERSION",  -- line 585
  .undefine "PRI_MACROS_BROKEN",  -- line 588
  .define "PSS_STYLE" "1",  -- line 591
  .undefine "PTHREAD_AFFINITY_NP",  -- line 595
  .undefine "PTHREAD_IN_USE_DETECTION_HARD",  -- line 598
  .define "SIZEOF_CHAR" "1",  -- line 601
  .define "SIZEOF_INT" "4",  -- line 604
  .define "SIZEOF_LONG" "8",  -- line 607
  .define "SIZEOF_LONG_LONG" "8",  -- line 610
  .define "SIZEOF_OFF_T" "8",  -- line 613
  .define "SIZEOF_PTRDIFF_T" "8",  -- line 616
  .define "SIZEOF_SHORT" "2",  -- line 619
  .define "SIZEOF_SIZE_T" "8",  -- line 622
  .define "SIZEOF_VOID_P" "8",  -- line 625
  .undefine "SIZEOF___INT64"  -- line 628
]

/-- Directives of config.h, lines 629-764: SIZE_MAX, threading backends, system extensions, WANT_* toggles, WIN32. -/
def threadsAndFeatures : List Directive := [
  .ifBlock (.notDefined "SIZE_MAX") [.undefine "SIZE_MAX"] [],  -- lines 632-634
  .undefine "STACK_DIRECTION",  -- line 642
  .define "STDC_HEADERS" "1",  -- line 645
  .undefine "USE_POSIX_THREADS",  -- line 648
  .undefine "USE_POSIX_THREADS_WEAK",  -- line 652
  .undefine "USE_PTH_THREADS",  -- line 655
  .undefine "USE_PTH_THREADS_WEAK",  -- line 659
  .undefine "USE_SOLARIS_THREADS",  -- line 662
  .undefine "USE_SOLARIS_THREADS_WEAK",  -- line 666
  .ifBlock (.notDefined "_ALL_SOURCE") [.undefine "_ALL_SOURCE"] [],  -- lines 669-671
  .ifBlock (.notDefined "_GNU_SOURCE") [.define "_GNU_SOURCE" ""] [],  -- lines 673-675
  .ifBlock (.notDefined "_POSIX_PTHREAD_SEMANTICS") [.undefine "_POSIX_PTHREAD_SEMANTICS"] [],  -- lines 677-679
  .ifBlock (.notDefined "_TANDEM_SOURCE") [.undefine "_TANDEM_SOURCE"] [],  -- lines 681-683
  .ifBlock (.notDefined "__EXTENSIONS__") [.undefine "__EXTENSIONS__"] [],  -- lines 685-687
  .undefine "USE_WIN32_THREADS",  -- line 691
  .undefine "VERSION",  -- line 694
  .undefine "WANT_APPLE2_EMU",  -- line 697
  .undefine "WANT_DEBUGGER",  -- line 700
  .undefine "WANT_FANCY_SCALERS",  -- line 704
  .undefine "WANT_GBA_EMU",  -- line 707
  .undefine "WANT_GB_EMU",  -- line 710
  .undefine "WANT_INTERNAL_CJK",  -- line 713
  .define "WANT_LYNX_EMU" "1",  -- line 716
  .undefine "WANT_MD_EMU",  -- line 719
  .undefine "WANT_NES_EMU",  -- line 722
  .define "WANT_NGP_EMU" "1",  -- line 725
  .define "WANT_PCE_EMU" "1",  -- line 728
  .undefine "WANT_PCE_FAST_EMU",  -- line 731
  .define "WANT_PCFX_EMU" "1",  -- line 734
  .define "WANT_PSX_EMU" "1",  -- line 737
  .undefine "WANT_SASPLAY_EMU",  -- line 740
  .define "WANT_SMS_EMU" "1",  -- line 743
  .undefine "WANT_SNES_EMU",  -- line 746
  .undefine "WANT_SNES_FAUST_EMU",  -- line 749
  .undefine "WANT_SSFPLAY_EMU",  -- line 752
  .define "WANT_SS_EMU" "1",  -- line 755
  .define "WANT_VB_EMU" "1",  -- line 758
  .define "WANT_WSWAN_EMU" "1",  -- line 761
  .undefine "WIN32"  -- line 764
]

/-- Directives of config.h, lines 765-823: WORDS_BIGENDIAN .. uintmax_t. -/
def systemTail : List Directive := [
  .ifBlock (.isDefined "AC_APPLE_UNIVERSAL_BUILD") [.ifBlock (.isDefined "__BIG_ENDIAN__") [.define "WORDS_BIGENDIAN" "1"] []] [.ifBlock (.notDefined "WORDS_BIGENDIAN") [.undefine "WORDS_BIGENDIAN"] []],  -- lines 768-776
  .ifBlock (.notDefined "_DARWIN_USE_64_BIT_INODE") [.define "_DARWIN_USE_64_BIT_INODE" "1"] [],  -- lines 779-781
  .undefine "_FILE_OFFSET_BITS",  -- line 784
  .undefine "_LARGEFILE64_SOURCE",  -- line 787
  .undefine "_LARGEFILE_SOURCE",  -- line 790
  .undefine "_LARGE_FILES",  -- line 793
  .undefine "_MINIX",  -- line 796
  .undefine "_POSIX_1_SOURCE",  -- line 800
  .undefine "_POSIX_SOURCE",  -- line 803
  .undefine "const",  -- line 806
  .ifBlock (.notDefined "__cplusplus") [.undefine "inline"] [],  -- lines 810-812
  .undefine "ptrdiff_t",  -- line 816
  .undefine "size_t",  -- line 819
  .undefine "uintmax_t"  -- line 823
]

/-- Directives of config.h, lines 826-863: the symbol remapping table. -/
def aliasSection : List Directive := [
  .define "__libc_lock_t" "gl_lock_t",  -- line 826
  .define "__libc_lock_define" "gl_lock_define",  -- line 827
  .define "__libc_lock_define_initialized" "gl_lock_define_initialized",  -- line 828
  .define "__libc_lock_init" "gl_lock_init",  -- line 829
  .define "__libc_lock_lock" "gl_lock_lock",  -- line 830
  .define "__libc_lock_unlock" "gl_lock_unlock",  -- line 831
  .define "__libc_lock_recursive_t" "gl_recursive_lock_t",  -- line 832
  .define "__libc_lock_define_recursive" "gl_recursive_lock_define",  -- line 833
  .define "__libc_lock_define_initialized_recursive" "gl_recursive_lock_define_initialized",  -- line 834
  .define "__libc_lock_init_recursive" "gl_recursive_lock_init",  -- line 835
  .define "__libc_lock_lock_recursive" "gl_recursive_lock_lock",  -- line 836
  .define "__libc_lock_unlock_recursive" "gl_recursive_lock_unlock",  -- line 837
  .define "glthread_in_use" "libintl_thread_in_use",  -- line 838
  .define "glthread_lock_init_func" "libintl_lock_init_func",  -- line 839
  .define "glthread_lock_lock_func" "libintl_lock_lock_func",  -- line 840
  .define "glthread_lock_unlock_func" "libintl_lock_unlock_func",  -- line 841
  .define "glthread_lock_destroy_func" "libintl_lock_destroy_func",  -- line 842
  .define "glthread_rwlock_init_multithreaded" "libintl_rwlock_init_multithreaded",  -- line 843
  .define "glthread_rwlock_init_func" "libintl_rwlock_init_func",  -- line 844
  .define "glthread_rwlock_rdlock_multithreaded" "libintl_rwlock_rdlock_multithreaded",  -- line 845
  .define "glthread_rwlock_rdlock_func" "libintl_rwlock_rdlock_func",  -- line 846
  .define "glthread_rwlock_wrlock_multithreaded" "libintl_rwlock_wrlock_multithreaded",  -- line 847
  .define "glthread_rwlock_wrlock_func" "libintl_rwlock_wrlock_func",  -- line 848
  .define "glthread_rwlock_unlock_multithreaded" "libintl_rwlock_unlock_multithreaded",  -- line 849
  .define "glthread_rwlock_unlock_func" "libintl_rwlock_unlock_func",  -- line 850
  .define "glthread_rwlock_destroy_multithreaded" "libintl_rwlock_destroy_multithreaded",  -- line 851
  .define "glthread_rwlock_destroy_func" "libintl_rwlock_destroy_func",  -- line 852
  .define "glthread_recursive_lock_init_multithreaded" "libintl_recursive_lock_init_multithreaded",  -- line 853
  .define "glthread_recursive_lock_init_func" "libintl_recursive_lock_init_func",  -- line 854
  .define "glthread_recursive_lock_lock_multithreaded" "libintl_recursive_lock_lock_multithreaded",  -- line 855
  .define "glthread_recursive_lock_lock_func" "libintl_recursive_lock_lock_func",  -- line 856
  .define "glthread_recursive_lock_unlock_multithreaded" "libintl_recursive_lock_unlock_multithreaded",  -- line 857
  .define "glthread_recursive_lock_unlock_func" "libintl_recursive_lock_unlock_func",  -- line 858
  .define "glthread_recursive_lock_destroy_multithreaded" "libintl_recursive_lock_destroy_multithreaded",  -- line 859
  .define "glthread_recursive_lock_destroy_func" "libintl_recursive_lock_destroy_func",  -- line 860
  .define "glthread_once_func" "libintl_once_func",  -- line 861
  .define "glthread_once_singlethreaded" "libintl_once_singlethreaded",  -- line 862
  .define "glthread_once_multithreaded" "libintl_once_multithreaded"  -- line 863
]
/-- The whole header, in source order. -/
def configH : List Directive :=
  hostFacts ++ hostFacts2 ++ hostFacts3 ++ threadsAndFeatures ++ systemTail ++ aliasSection

/-- The macro environment after `#include "config.h"`, given the one before it. -/
def processConfigH (env : MacroEnv) : MacroEnv := runList configH env

/-! ### Reading the text of the header -/

mutual
/-- Names a directive can bind or unbind (both branches of a block are counted). -/
def Directive.targets : Directive → List String
  | .undefine n => [n]
  | .define n _ => [n]
  | .ifBlock _ thn els => targetsList thn ++ targetsList els
/-- Names a sequence of directives can bind or unbind, in source order. -/
def targetsList : List Directive → List String
  | [] => []
  | d :: ds => d.targets ++ targetsList ds
end

mutual
/-- Names targeted by a `#define` of the directive, inside blocks included. -/
def Directive.defineTargets : Directive → List String
  | .undefine _ => []
  | .define n _ => [n]
  | .ifBlock _ thn els => defineTargetsList thn ++ defineTargetsList els
/-- Names targeted by a `#define` anywhere in the sequence. -/
def defineTargetsList : List Directive → List String
  | [] => []
  | d :: ds => d.defineTargets ++ defineTargetsList ds
end

mutual
/-- Names targeted by an `#undef` of the directive, inside blocks included. -/
def Directive.undefTargets : Directive → List String
  | .undefine n => [n]
  | .define _ _ => []
  | .ifBlock _ thn els => undefTargetsList thn ++ undefTargetsList els
/-- Names targeted by an `#undef` anywhere in the sequence. -/
def undefTargetsList : List Directive → List String
  | [] => []
  | d :: ds => d.undefTargets ++ undefTargetsList ds
end

mutual
/-- Names inspected by the block tests of the directive. -/
def Directive.tested : Directive → List String
  | .undefine _ => []
  | .define _ _ => []
  | .ifBlock c thn els => c.name :: (testedList thn ++ testedList els)
/-- Names inspected by the block tests of the sequence. -/
def testedList : List Directive → List String
  | [] => []
  | d :: ds => d.tested ++ testedList ds
end

/-- The `#define` directives standing outside every conditional block, as (name, body). -/
def topDefines : List Directive → List (String × String)
  | [] => []
  | .define n b :: ds => (n, b) :: topDefines ds
  | _ :: ds => topDefines ds

mutual
/-- Names targeted by the `#define` / `#undef` directives that are really executed when the
directive is processed in `env`: in a block, only those of the selected branch. -/
def Directive.executed : Directive → MacroEnv → List String
  | .undefine n, _ => [n]
  | .define n _, _ => [n]
  | .ifBlock c thn els, env => if c.holds env then executedList thn env else executedList els env
/-- Names targeted by the directives really executed when the sequence is processed. -/
def executedList : List Directive → MacroEnv → List String
  | [], _ => []
  | d :: ds, env => d.executed env ++ executedList ds (d.run env)
end

/-- What a sequence of directives does to one name, read off the text alone:
`untouched` when no directive targets the name, `fixed v` when the last directive targeting
it stands outside every conditional block and leaves it at `v`, and `dynamic` when the last
directive targeting it is inside a conditional block. -/
inductive Verdict where
  | untouched
  | fixed (v : Option String)
  | dynamic
  deriving DecidableEq, Repr

/-- The verdict of one directive, for a name the rest of the sequence leaves untouched. -/
def Directive.verdict : Directive → String → Verdict
  | .undefine m, n => if n = m then .fixed none else .untouched
  | .define m b, n => if n = m then .fixed (some b) else .untouched
  | .ifBlock _ thn els, n => if n ∈ targetsList thn ++ targetsList els then .dynamic else .untouched

/-- The verdict of a sequence of directives on a name. -/
def verdict : List Directive → String → Verdict
  | [], _ => .untouched
  | d :: ds, n =>
    match verdict ds n with
    | .untouched => d.verdict n
    | r => r

/-- A numeric key of a name (its characters as digits in base 1114112), used to compare
names by arithmetic. -/
def nameKey (s : String) : Nat := s.toList.foldl (fun acc c => acc * 1114112 + c.toNat) 0

/-- Whether the name `n` begins with the characters of `p`. -/
def beginsWith (p n : String) : Bool := decide (n.toList.take p.length = p.toList)

/-! ### The groups of names the header records -/

/-- The feature toggles the header names: its `WANT_` names, in source order. -/
def wantToggles : List String := (targetsList configH).filter (beginsWith "WANT_")

/-- The toggles the header enables (lines 716-761). -/
def wantEnabled : List String :=
  ["WANT_LYNX_EMU", "WANT_NGP_EMU", "WANT_PCE_EMU", "WANT_PCFX_EMU", "WANT_PSX_EMU",
   "WANT_SMS_EMU", "WANT_SS_EMU", "WANT_VB_EMU", "WANT_WSWAN_EMU"]

/-- The toggles the header names and disables (lines 697-752). -/
def wantDisabled : List String :=
  ["WANT_APPLE2_EMU", "WANT_DEBUGGER", "WANT_FANCY_SCALERS", "WANT_GBA_EMU", "WANT_GB_EMU",
   "WANT_INTERNAL_CJK", "WANT_MD_EMU", "WANT_NES_EMU", "WANT_PCE_FAST_EMU", "WANT_SASPLAY_EMU",
   "WANT_SNES_EMU", "WANT_SNES_FAUST_EMU", "WANT_SSFPLAY_EMU"]

/-- The threading-primitive flags of the header: its `HAVE_PTHREAD_` names (lines 328-360),
its `HAVE_SEM_` names (lines 386-399) and `PTHREAD_AFFINITY_NP` (line 595), in source order. -/
def threadPrimitiveFlags : List String :=
  (targetsList configH).filter
    (fun n => beginsWith "HAVE_PTHREAD_" n || beginsWith "HAVE_SEM_" n || n == "PTHREAD_AFFINITY_NP")

/-- The threading-backend selectors of the header (lines 648, 655, 662, 691). -/
def threadBackends : List String :=
  ["USE_POSIX_THREADS", "USE_PTH_THREADS", "USE_SOLARIS_THREADS", "USE_WIN32_THREADS"]

/-- The socket primitives behind POSIX sockets support (lines 37, 68, 88, 254, 366, 402, 426). -/
def socketPrimitives : List String :=
  ["HAVE_SOCKET", "HAVE_CONNECT", "HAVE_BIND", "HAVE_LISTEN", "HAVE_ACCEPT", "HAVE_SEND",
   "HAVE_RECV"]

/-- The conditional block of lines 768-776, the one place where a name has two directives. -/
def wordsBigendianBlock : Directive :=
  .ifBlock (.isDefined "AC_APPLE_UNIVERSAL_BUILD")
    [.ifBlock (.isDefined "__BIG_ENDIAN__") [.define "WORDS_BIGENDIAN" "1"] []]
    [.ifBlock (.notDefined "WORDS_BIGENDIAN") [.undefine "WORDS_BIGENDIAN"] []]

/-- The directives of the header before line 768. -/
def beforeWordsBigendian : List Directive :=
  hostFacts ++ hostFacts2 ++ hostFacts3 ++ threadsAndFeatures

/-- The directives of the header after line 776. -/
def afterWordsBigendian : List Directive := systemTail.tail ++ aliasSection

/-! ### The symbol remapping table (lines 826-863) -/

/-- The remapping table as (original, alias) pairs, read off the `#define` lines. -/
def aliasTable : List (String × String) := topDefines aliasSection

/-- The registered original names. -/
def aliasOriginals : List String := aliasTable.map Prod.fst

/-- The aliases (replacement names). -/
def aliasTargets : List String := aliasTable.map Prod.snd

/-- The name an identifier stands for under the remapping table alone: its replacement when
one of the table's `#define` lines binds it, the identifier itself otherwise. -/
def resolveAlias (n : String) : String := (runList aliasSection emptyEnv n).getD n

/-! ### Names decided inside conditional blocks -/

/-- The last directive of the sequence, a block as a whole included, that targets `n`,
together with the directives standing before it. -/
def lastTouch : List Directive → String → Option (List Directive × Directive)
  | [], _ => none
  | d :: ds, n =>
    match lastTouch ds n with
    | some (pre, d') => some (d :: pre, d')
    | none => if n ∈ d.targets then some ([], d) else none

/-- The settings made outside every conditional block, as (name, binding left), in source
order: `none` for an `#undef`, `some body` for a `#define`. -/
def topSettings : List Directive → List (String × Option String)
  | [] => []
  | .undefine n :: ds => (n, none) :: topSettings ds
  | .define n b :: ds => (n, some b) :: topSettings ds
  | .ifBlock _ _ _ :: ds => topSettings ds

/-- The conditional blocks of the sequence, as (test, then-part, else-part), in source order. -/
def topBlocks : List Directive → List (Cond × List Directive × List Directive)
  | [] => []
  | .ifBlock c thn els :: ds => (c, thn, els) :: topBlocks ds
  | .undefine _ :: ds => topBlocks ds
  | .define _ _ :: ds => topBlocks ds

/-- Names targeted by a directive standing inside a conditional block, in source order. -/
def blockTargets : List Directive → List String
  | [] => []
  | .ifBlock _ thn els :: ds => (targetsList thn ++ targetsList els) ++ blockTargets ds
  | .undefine _ :: ds => blockTargets ds
  | .define _ _ :: ds => blockTargets ds

/-- The names the header handles inside `#if` / `#ifndef` guards (lines 632-634, 669-687,
768-781, 810-812). -/
def guardedNames : List String :=
  ["SIZE_MAX", "_ALL_SOURCE", "_GNU_SOURCE", "_POSIX_PTHREAD_SEMANTICS", "_TANDEM_SOURCE",
   "__EXTENSIONS__", "WORDS_BIGENDIAN", "_DARWIN_USE_64_BIT_INODE", "inline"]

/-- An environment in which every name is defined, with body `0`. -/
def allDefinedEnv : MacroEnv := fun _ => some "0"

/-- An environment of an Apple universal big-endian build: `AC_APPLE_UNIVERSAL_BUILD` and
`__BIG_ENDIAN__` predefined, nothing else. -/
def appleUniversalEnv : MacroEnv :=
  (emptyEnv.bind "AC_APPLE_UNIVERSAL_BUILD" (some "1")).bind "__BIG_ENDIAN__" (some "1")

mutual
/-- The `#define` directives really executed when the directive is processed in `env`, each as
(name, binding found in force, body installed). -/
def Directive.defineEvents : Directive → MacroEnv → List (String × Option String × String)
  | .undefine _, _ => []
  | .define n b, env => [(n, env n, b)]
  | .ifBlock c thn els, env =>
    if c.holds env then defineEventsList thn env else defineEventsList els env
/-- The `#define` directives really executed when the sequence is processed from `env`. -/
def defineEventsList : List Directive → MacroEnv → List (String × Option String × String)
  | [], _ => []
  | d :: ds, env => d.defineEvents env ++ defineEventsList ds (d.run env)
end

mutual
/-- Whether the directive finds in `env` what it would install: an `#undef` finds its name
undefined, a `#define` finds its name bound to its own body, a block has its selected branch
settled. -/
def Directive.settled : Directive → MacroEnv → Bool
  | .undefine n, env => (env n).isNone
  | .define n b, env => decide (env n = some b)
  | .ifBlock c thn els, env => if c.holds env then settledList thn env else settledList els env
/-- Whether every directive of the sequence is settled in `env`. -/
def settledList : List Directive → MacroEnv → Bool
  | [], _ => true
  | d :: ds, env => d.settled env && settledList ds env
end

/-! ### Integer values of macro bodies -/

/-- The value of a body that is a decimal integer constant (digits only), `none` otherwise. -/
def decimalValue (s : String) : Option Nat :=
  if s.toList ≠ [] ∧ s.toList.all Char.isDigit = true then
    some (s.toList.foldl (fun acc c => acc * 10 + (c.toNat - 48)) 0)
  else none

/-- The integer a name stands for in `env`: `none` when it is undefined or its body is not a
decimal constant. -/
def intValue (env : MacroEnv) (n : String) : Option Nat := (env n).bind decimalValue

/-- The size a `SIZEOF_` name records in `env`, in bytes (`0` when it records none). -/
def sizeValue (env : MacroEnv) (n : String) : Nat := (intValue env n).getD 0

set_option maxRecDepth 1000000

/-! ## General facts about processing directives -/

theorem bind_same (env : MacroEnv) (n : String) (v : Option String) : env.bind n v n = v := by
  simp [MacroEnv.bind]

theorem bind_other (env : MacroEnv) (m n : String) (v : Option String) (h : n ≠ m) :
    env.bind m v n = env n := by
  simp [MacroEnv.bind, h]

mutual
/-- A directive leaves every name it does not target as it was. -/
theorem Directive.run_frame : ∀ (d : Directive) (env : MacroEnv) (n : String),
    n ∉ d.targets → d.run env n = env n
  | .undefine m, env, n, h => by
    have hne : n ≠ m := by simpa [Directive.targets] using h
    simp [Directive.run, bind_other _ _ _ _ hne]
  | .define m b, env, n, h => by
    have hne : n ≠ m := by simpa [Directive.targets] using h
    simp [Directive.run, bind_other _ _ _ _ hne]
  | .ifBlock c thn els, env, n, h => by
    have h1 : n ∉ targetsList thn := fun hm => h (by simp [Directive.targets, hm])
    have h2 : n ∉ targetsList els := fun hm => h (by simp [Directive.targets, hm])
    simp only [Directive.run]
    split
    · exact runList_frame thn env n h1
    · exact runList_frame els env n h2
/-- A sequence of directives leaves every name it does not target as it was. -/
theorem runList_frame : ∀ (ds : List Directive) (env : MacroEnv) (n : String),
    n ∉ targetsList ds → runList ds env n = env n
  | [], env, n, _ => by simp [runList]
  | d :: ds, env, n, h => by
    have h1 : n ∉ d.targets := fun hm => h (by simp [targetsList, hm])
    have h2 : n ∉ targetsList ds := fun hm => h (by simp [targetsList, hm])
    simp only [runList]
    rw [runList_frame ds (d.run env) n h2, Directive.run_frame d env n h1]
end

theorem verdict_untouched_not_mem : ∀ (ds : List Directive) (n : String),
    verdict ds n = .untouched → n ∉ targetsList ds
  | [], n, _ => by simp [targetsList]
  | d :: ds, n, h => by
    simp only [verdict] at h
    have hds : verdict ds n = .untouched := by
      cases hv : verdict ds n <;> simp_all
    rw [hds] at h
    have ih := verdict_untouched_not_mem ds n hds
    have hd : n ∉ d.targets := by
      cases d with
      | undefine m =>
        simp only [Directive.verdict] at h
        by_cases hnm : n = m
        · simp [hnm] at h
        · simpa [Directive.targets] using hnm
      | define m b =>
        simp only [Directive.verdict] at h
        by_cases hnm : n = m
        · simp [hnm] at h
        · simpa [Directive.targets] using hnm
      | ifBlock c thn els =>
        simp only [Directive.verdict] at h
        by_cases hm : n ∈ targetsList thn ++ targetsList els
        · simp [hm] at h
        · simpa [Directive.targets] using hm
    simp [targetsList, hd, ih]

/-- Soundness of the textual verdict: a name with verdict `fixed v` is bound to `v` after the
directives have run, whatever the environment before them was. -/
theorem verdict_fixed_sound : ∀ (ds : List Directive) (n : String) (v : Option String),
    verdict ds n = .fixed v → ∀ env : MacroEnv, runList ds env n = v
  | [], n, v, h, env => by simp [verdict] at h
  | d :: ds, n, v, h, env => by
    simp only [verdict] at h
    simp only [runList]
    cases hv : verdict ds n with
    | fixed w =>
      rw [hv] at h
      have hw : w = v := by simpa using h
      exact hw ▸ verdict_fixed_sound ds n w hv (d.run env)
    | dynamic => rw [hv] at h; simp at h
    | untouched =>
      rw [hv] at h
      rw [runList_frame ds (d.run env) n (verdict_untouched_not_mem ds n hv)]
      cases d with
      | undefine m =>
        simp only [Directive.verdict] at h
        by_cases hnm : n = m
        · subst hnm
          have : v = none := by simpa using h.symm
          simp [Directive.run, bind_same, this]
        · simp [hnm] at h
      | define m b =>
        simp only [Directive.verdict] at h
        by_cases hnm : n = m
        · subst hnm
          have : v = some b := by simpa using h.symm
          simp [Directive.run, bind_same, this]
        · simp [hnm] at h
      | ifBlock c thn els =>
        simp only [Directive.verdict] at h
        by_cases hm : n ∈ targetsList thn ++ targetsList els <;> simp [hm] at h

/-- Soundness of the textual verdict: a name with verdict `untouched` keeps its binding. -/
theorem verdict_untouched_sound (ds : List Directive) (n : String)
    (h : verdict ds n = .untouched) (env : MacroEnv) : runList ds env n = env n :=
  runList_frame ds env n (verdict_untouched_not_mem ds n h)

theorem runList_append : ∀ (xs ys : List Directive) (env : MacroEnv),
    runList (xs ++ ys) env = runList ys (runList xs env)
  | [], ys, env => by simp [runList]
  | d :: xs, ys, env => by simp [runList, runList_append xs ys]

theorem targetsList_append : ∀ (xs ys : List Directive),
    targetsList (xs ++ ys) = targetsList xs ++ targetsList ys
  | [], ys => by simp [targetsList]
  | d :: xs, ys => by simp [targetsList, targetsList_append xs ys]

theorem executedList_cons (d : Directive) (ds : List Directive) (env : MacroEnv) :
    executedList (d :: ds) env = d.executed env ++ executedList ds (d.run env) := by
  simp only [executedList]

theorem executedList_append : ∀ (xs ys : List Directive) (env : MacroEnv),
    executedList (xs ++ ys) env = executedList xs env ++ executedList ys (runList xs env)
  | [], ys, env => by simp [executedList, runList]
  | d :: xs, ys, env => by simp [executedList, runList, executedList_append xs ys]

mutual
/-- The directives executed in a run are among the directives written, in the same order. -/
theorem Directive.executed_sublist : ∀ (d : Directive) (env : MacroEnv),
    (d.executed env).Sublist d.targets
  | .undefine m, env => by simp [Directive.executed, Directive.targets]
  | .define m b, env => by simp [Directive.executed, Directive.targets]
  | .ifBlock c thn els, env => by
    simp only [Directive.executed, Directive.targets]
    split
    · exact (executedList_sublist thn env).trans (List.sublist_append_left _ _)
    · exact (executedList_sublist els env).trans (List.sublist_append_right _ _)
/-- The directives executed in a run are among the directives written, in the same order. -/
theorem executedList_sublist : ∀ (ds : List Directive) (env : MacroEnv),
    (executedList ds env).Sublist (targetsList ds)
  | [], env => by simp [executedList, targetsList]
  | d :: ds, env => by
    simp only [executedList, targetsList]
    exact (Directive.executed_sublist d env).append (executedList_sublist ds (d.run env))
end

mutual
theorem Directive.count_targets : ∀ (d : Directive) (n : String),
    d.targets.count n = d.defineTargets.count n + d.undefTargets.count n
  | .undefine m, n => by simp [Directive.targets, Directive.defineTargets, Directive.undefTargets]
  | .define m b, n => by simp [Directive.targets, Directive.defineTargets, Directive.undefTargets]
  | .ifBlock c thn els, n => by
    simp only [Directive.targets, Directive.defineTargets, Directive.undefTargets,
      List.count_append]
    rw [count_targetsList thn n, count_targetsList els n]
    omega
/-- Every directive targeting a name is a `#define` or an `#undef` of it. -/
theorem count_targetsList : ∀ (ds : List Directive) (n : String),
    (targetsList ds).count n = (defineTargetsList ds).count n + (undefTargetsList ds).count n
  | [], n => by simp [targetsList, defineTargetsList, undefTargetsList]
  | d :: ds, n => by
    simp only [targetsList, defineTargetsList, undefTargetsList, List.count_append]
    rw [Directive.count_targets d n, count_targetsList ds n]
    omega
end

theorem nodup_of_keys (l : List String) (h : (l.map nameKey).Nodup) : l.Nodup :=
  List.Nodup.of_map nameKey h

theorem not_mem_of_key (a : String) (l : List String) (h : nameKey a ∉ l.map nameKey) :
    a ∉ l :=
  fun hm => h (List.mem_map_of_mem nameKey hm)

/-! ## Facts read off the text of `config.h` -/

/-- The header is the part before line 768, the block of lines 768-776 and the rest. -/
theorem configH_split :
    configH = beforeWordsBigendian ++ wordsBigendianBlock :: afterWordsBigendian := by
  rfl

/-- Every name has at most one directive, once one of the two `WORDS_BIGENDIAN` directives
is set aside. -/
theorem targets_nodup_up_to_wordsBigendian :
    (targetsList beforeWordsBigendian ++
      "WORDS_BIGENDIAN" :: targetsList afterWordsBigendian).Nodup := by
  apply nodup_of_keys
  decide!

theorem targets_configH :
    targetsList configH = targetsList beforeWordsBigendian ++
      "WORDS_BIGENDIAN" :: "WORDS_BIGENDIAN" :: targetsList afterWordsBigendian := by
  rw [configH_split, targetsList_append]
  rfl

theorem wantEnabled_verdict : ∀ n ∈ wantEnabled, verdict configH n = .fixed (some "1") := by
  decide

theorem wantDisabled_verdict : ∀ n ∈ wantDisabled, verdict configH n = .fixed none := by
  decide

theorem wantToggles_eq :
    wantToggles =
      ["WANT_APPLE2_EMU", "WANT_DEBUGGER", "WANT_FANCY_SCALERS", "WANT_GBA_EMU", "WANT_GB_EMU",
       "WANT_INTERNAL_CJK", "WANT_LYNX_EMU", "WANT_MD_EMU", "WANT_NES_EMU", "WANT_NGP_EMU",
       "WANT_PCE_EMU", "WANT_PCE_FAST_EMU", "WANT_PCFX_EMU", "WANT_PSX_EMU", "WANT_SASPLAY_EMU",
       "WANT_SMS_EMU", "WANT_SNES_EMU", "WANT_SNES_FAUST_EMU", "WANT_SSFPLAY_EMU", "WANT_SS_EMU",
       "WANT_VB_EMU", "WANT_WSWAN_EMU"] := by
  decide!
theorem aliasSection_targets : targetsList aliasSection = aliasOriginals := by
  decide!

/-- Each registered original resolves to the alias written on its line. -/
theorem resolveAlias_originals : aliasOriginals.map resolveAlias = aliasTargets := by
  decide!

theorem aliasTargets_nodup : aliasTargets.Nodup := by
  apply nodup_of_keys
  decide!

theorem aliasTargets_not_original : ∀ t ∈ aliasTargets, t ∉ aliasOriginals := by
  decide!

theorem aliasTargets_not_mentioned :
    ∀ t ∈ aliasTargets, nameKey t ∉ (targetsList configH ++ testedList configH).map nameKey := by
  decide!

theorem resolveAlias_unregistered (n : String) (h : n ∉ aliasOriginals) : resolveAlias n = n := by
  have hfr := runList_frame aliasSection emptyEnv n (by rw [aliasSection_targets]; exact h)
  simp [resolveAlias, hfr, emptyEnv]

theorem resolveAlias_registered (n : String) (h : n ∈ aliasOriginals) :
    resolveAlias n ∈ aliasTargets := by
  rw [← resolveAlias_originals]
  exact List.mem_map_of_mem resolveAlias h

theorem threadPrimitiveFlags_eq :
    threadPrimitiveFlags =
      ["HAVE_PTHREAD_CONDATTR_SETCLOCK", "HAVE_PTHREAD_COND_TIMEDWAIT_RELATIVE_NP",
       "HAVE_PTHREAD_CREATE", "HAVE_PTHREAD_GETAFFINITY_NP", "HAVE_PTHREAD_H",
       "HAVE_PTHREAD_MUTEX_RECURSIVE", "HAVE_PTHREAD_NP_H", "HAVE_PTHREAD_RWLOCK",
       "HAVE_PTHREAD_SETAFFINITY_NP", "HAVE_PTHREAD_SETNAME_NP", "HAVE_PTHREAD_SET_NAME_NP",
       "HAVE_SEM_CLOCKWAIT", "HAVE_SEM_CLOCKWAIT_NP", "HAVE_SEM_INIT", "HAVE_SEM_TIMEDWAIT",
       "HAVE_SEM_TIMEDWAIT_MONOTONIC", "PTHREAD_AFFINITY_NP"] := by
  decide!

theorem threadPrimitiveFlags_verdict :
    ∀ n ∈ threadPrimitiveFlags, verdict configH n = .fixed none := by
  decide!

theorem threadBackends_verdict : ∀ b ∈ threadBackends, verdict configH b = .fixed none := by
  decide!

theorem socketPrimitives_verdict : ∀ n ∈ socketPrimitives, verdict configH n = .fixed none := by
  decide!

/-- Of the two directives of lines 770 and 774 at most one is executed. -/
theorem wordsBigendianBlock_executed (env : MacroEnv) :
    wordsBigendianBlock.executed env = [] ∨
      wordsBigendianBlock.executed env = ["WORDS_BIGENDIAN"] := by
  simp only [wordsBigendianBlock, Directive.executed, executedList]
  split <;> split <;> simp

theorem topDefines_verdict :
    ∀ p ∈ topDefines configH, verdict configH p.1 = .fixed (some p.2) := by
  decide!

/-! ## The claims -/

/-- Claim C1. For every initial macro environment, the feature toggles the header names (its
`WANT_` names) are the nine enabled ones together with the thirteen disabled ones; after
`config.h` each of the nine is defined with body `1`, each of the thirteen is undefined even
if it was defined before, and so a toggle of the header is defined exactly when it is one of
the nine. -/
theorem want_toggles_closed_world (env : MacroEnv) :
    (∀ n, n ∈ wantToggles ↔ n ∈ wantEnabled ∨ n ∈ wantDisabled) ∧
    (∀ n ∈ wantEnabled, processConfigH env n = some "1") ∧
    (∀ n ∈ wantDisabled, processConfigH env n = none) ∧
    (∀ n ∈ wantToggles, (processConfigH env n).isSome = true ↔ n ∈ wantEnabled) := by
  have hmem : ∀ n, n ∈ wantToggles ↔ n ∈ wantEnabled ∨ n ∈ wantDisabled := by
    intro n
    rw [wantToggles_eq]
    simp only [wantEnabled, wantDisabled, List.mem_cons, List.mem_singleton]
    simp only [List.not_mem_nil, or_false]
    tauto
  have hen : ∀ n ∈ wantEnabled, processConfigH env n = some "1" := fun n hn =>
    verdict_fixed_sound configH n _ (wantEnabled_verdict n hn) env
  have hdis : ∀ n ∈ wantDisabled, processConfigH env n = none := fun n hn =>
    verdict_fixed_sound configH n _ (wantDisabled_verdict n hn) env
  refine ⟨hmem, hen, hdis, ?_⟩
  intro n hn
  rcases (hmem n).1 hn with h | h
  · simp [hen n h, h]
  · constructor
    · intro hs
      rw [hdis n h] at hs
      simp at hs
    · intro he
      rw [hen n he]
      rfl

/-- Claim C2. The remapping table is injective on its registered originals: two registered
original names with the same alias are the same name. -/
theorem alias_injective_on_originals (a b : String) (ha : a ∈ aliasOriginals)
    (hb : b ∈ aliasOriginals) (h : resolveAlias a = resolveAlias b) : a = b := by
  have hnd : (aliasOriginals.map resolveAlias).Nodup := by
    rw [resolveAlias_originals]
    exact aliasTargets_nodup
  exact List.inj_on_of_nodup_map hnd ha hb h

/-- Witness for C2 at the original of line 826. -/
theorem alias_injective_on_originals_witness :
    "__libc_lock_t" ∈ aliasOriginals ∧ resolveAlias "__libc_lock_t" = "gl_lock_t" ∧
      "__libc_lock_t" = "__libc_lock_t" :=
  ⟨by decide, by decide,
    alias_injective_on_originals "__libc_lock_t" "__libc_lock_t" (by decide) (by decide) rfl⟩

/-- Claim C3. No alias of the remapping table is a registered original, no alias is a name
the header defines, undefines or tests anywhere else, and resolving a resolved name changes
nothing. -/
theorem alias_no_self_shadowing :
    (∀ t ∈ aliasTargets, t ∉ aliasOriginals) ∧
    (∀ t ∈ aliasTargets, t ∉ targetsList configH ++ testedList configH) ∧
    (∀ x : String, resolveAlias (resolveAlias x) = resolveAlias x) := by
  refine ⟨aliasTargets_not_original, ?_, ?_⟩
  · intro t ht
    exact not_mem_of_key t _ (aliasTargets_not_mentioned t ht)
  · intro x
    by_cases hx : x ∈ aliasOriginals
    · exact resolveAlias_unregistered _
        (aliasTargets_not_original _ (resolveAlias_registered x hx))
    · have h := resolveAlias_unregistered x hx
      rw [h, h]

/-- Claim C5. For every initial macro environment, after `config.h` every threading-primitive
flag of the header (the eleven `HAVE_PTHREAD_` flags, the five `HAVE_SEM_` flags and
`PTHREAD_AFFINITY_NP`) is undefined, and so is every threading-backend selector; hence
whenever one of the flags is defined, one of `USE_POSIX_THREADS`, `USE_PTH_THREADS`,
`USE_SOLARIS_THREADS`, `USE_WIN32_THREADS` is defined (no flag ever is). -/
theorem no_thread_primitive_without_backend (env : MacroEnv) :
    threadPrimitiveFlags =
      ["HAVE_PTHREAD_CONDATTR_SETCLOCK", "HAVE_PTHREAD_COND_TIMEDWAIT_RELATIVE_NP",
       "HAVE_PTHREAD_CREATE", "HAVE_PTHREAD_GETAFFINITY_NP", "HAVE_PTHREAD_H",
       "HAVE_PTHREAD_MUTEX_RECURSIVE", "HAVE_PTHREAD_NP_H", "HAVE_PTHREAD_RWLOCK",
       "HAVE_PTHREAD_SETAFFINITY_NP", "HAVE_PTHREAD_SETNAME_NP", "HAVE_PTHREAD_SET_NAME_NP",
       "HAVE_SEM_CLOCKWAIT", "HAVE_SEM_CLOCKWAIT_NP", "HAVE_SEM_INIT", "HAVE_SEM_TIMEDWAIT",
       "HAVE_SEM_TIMEDWAIT_MONOTONIC", "PTHREAD_AFFINITY_NP"] ∧
    (∀ n ∈ threadPrimitiveFlags, processConfigH env n = none) ∧
    (∀ b ∈ threadBackends, processConfigH env b = none) ∧
    ((∃ n ∈ threadPrimitiveFlags, (processConfigH env n).isSome = true) →
      ∃ b ∈ threadBackends, (processConfigH env b).isSome = true) := by
  have hfl : ∀ n ∈ threadPrimitiveFlags, processConfigH env n = none := fun n hn =>
    verdict_fixed_sound configH n _ (threadPrimitiveFlags_verdict n hn) env
  refine ⟨threadPrimitiveFlags_eq, hfl, ?_, ?_⟩
  · exact fun b hb => verdict_fixed_sound configH b _ (threadBackends_verdict b hb) env
  · rintro ⟨n, hn, hs⟩
    rw [hfl n hn] at hs
    simp at hs

/-- Claim C6. No name is given two settings by `config.h`.  In the text, every name targeted
by a `#define`, `WORDS_BIGENDIAN` apart, is targeted by exactly one `#define` and by no
`#undef`; `WORDS_BIGENDIAN` is the only name with two directives, and they are the `#define`
in the then-branch and the `#undef` in the else-branch of the one block of lines 768-776, of
which at most one is executed.  In every run, from every initial environment, no name is
targeted by two executed directives, and every `#define` outside the conditional blocks
still holds at the end of the header with the body it was given. -/
theorem settings_unique :
    (∀ n ∈ defineTargetsList configH, n ≠ "WORDS_BIGENDIAN" →
      (defineTargetsList configH).count n = 1 ∧ (undefTargetsList configH).count n = 0) ∧
    (∀ n : String, 2 ≤ (targetsList configH).count n ↔ n = "WORDS_BIGENDIAN") ∧
    (∃ pre post, configH = pre ++ wordsBigendianBlock :: post ∧
      "WORDS_BIGENDIAN" ∉ targetsList pre ∧ "WORDS_BIGENDIAN" ∉ targetsList post) ∧
    (∀ env : MacroEnv, (wordsBigendianBlock.executed env).length ≤ 1) ∧
    (∀ env : MacroEnv, (executedList configH env).Nodup) ∧
    (∀ env : MacroEnv, ∀ p ∈ topDefines configH, processConfigH env p.1 = some p.2) := by
  have hcount : ∀ n : String, n ≠ "WORDS_BIGENDIAN" → (targetsList configH).count n ≤ 1 := by
    intro n hn
    have hk := List.nodup_iff_count_le_one.1 targets_nodup_up_to_wordsBigendian n
    have hne : ("WORDS_BIGENDIAN" == n) = false := by
      simpa using fun h : "WORDS_BIGENDIAN" = n => hn h.symm
    rw [targets_configH]
    simp only [List.count_append, List.count_cons, hne] at hk ⊢
    simpa using hk
  have hpre : "WORDS_BIGENDIAN" ∉ targetsList beforeWordsBigendian := fun hm =>
    (List.nodup_append.1 targets_nodup_up_to_wordsBigendian).2.2 hm (List.mem_cons_self _ _)
  have hpost : "WORDS_BIGENDIAN" ∉ targetsList afterWordsBigendian :=
    (List.nodup_cons.1 (List.nodup_append.1 targets_nodup_up_to_wordsBigendian).2.1).1
  refine ⟨?_, ?_, ⟨_, _, configH_split, hpre, hpost⟩, ?_, ?_, ?_⟩
  · intro n hn hne
    have h1 := hcount n hne
    rw [count_targetsList] at h1
    have h2 : 0 < (defineTargetsList configH).count n := List.count_pos_iff.2 hn
    omega
  · intro n
    constructor
    · intro h2
      by_contra hne
      have := hcount n hne
      omega
    · rintro rfl
      rw [targets_configH]
      simp only [List.count_append, List.count_cons_self]
      omega
  · intro env
    rcases wordsBigendianBlock_executed env with h | h <;> simp [h]
  · intro env
    refine List.Nodup.sublist ?_ targets_nodup_up_to_wordsBigendian
    rw [configH_split, executedList_append]
    refine (executedList_sublist _ _).append ?_
    rw [executedList_cons]
    have hblk : (wordsBigendianBlock.executed (runList beforeWordsBigendian env)).Sublist
        ["WORDS_BIGENDIAN"] := by
      rcases wordsBigendianBlock_executed (runList beforeWordsBigendian env) with h | h <;>
        simp [h]
    exact hblk.append (executedList_sublist _ _)
  · intro env p hp
    exact verdict_fixed_sound configH p.1 _ (topDefines_verdict p hp) env

/-- Claim C7. For every initial macro environment, after `config.h` `LSB_FIRST` is defined
with body `1` and `MSB_FIRST` is undefined, so exactly one of the two is defined. -/
theorem endianness_recorded (env : MacroEnv) :
    processConfigH env "LSB_FIRST" = some "1" ∧ processConfigH env "MSB_FIRST" = none ∧
    ((processConfigH env "LSB_FIRST").isSome = true ↔
      ¬ (processConfigH env "MSB_FIRST").isSome = true) := by
  have h1 : processConfigH env "LSB_FIRST" = some "1" :=
    verdict_fixed_sound configH _ _ (by decide) env
  have h2 : processConfigH env "MSB_FIRST" = none :=
    verdict_fixed_sound configH _ _ (by decide) env
  refine ⟨h1, h2, ?_⟩
  rw [h1, h2]
  simp

/-- Claim C8. For every initial macro environment, after `config.h` `ARCH_X86_64` and
`ARCH_X86` are defined (body `1`) while `ARCH_X86_32` and `ARCH_POWERPC` are undefined; so
`ARCH_X86_32` and `ARCH_X86_64` are not both defined, and `ARCH_X86` is defined if and only
if one of them is. -/
theorem arch_flags_agree (env : MacroEnv) :
    processConfigH env "ARCH_X86_64" = some "1" ∧
    processConfigH env "ARCH_X86" = some "1" ∧
    processConfigH env "ARCH_X86_32" = none ∧
    processConfigH env "ARCH_POWERPC" = none ∧
    ¬ ((processConfigH env "ARCH_X86_32").isSome = true ∧
        (processConfigH env "ARCH_X86_64").isSome = true) ∧
    ((processConfigH env "ARCH_X86").isSome = true ↔
      ((processConfigH env "ARCH_X86_32").isSome = true ∨
        (processConfigH env "ARCH_X86_64").isSome = true)) := by
  have h64 : processConfigH env "ARCH_X86_64" = some "1" :=
    verdict_fixed_sound configH _ _ (by decide) env
  have h86 : processConfigH env "ARCH_X86" = some "1" :=
    verdict_fixed_sound configH _ _ (by decide) env
  have h32 : processConfigH env "ARCH_X86_32" = none :=
    verdict_fixed_sound configH _ _ (by decide) env
  have hppc : processConfigH env "ARCH_POWERPC" = none :=
    verdict_fixed_sound configH _ _ (by decide) env
  refine ⟨h64, h86, h32, hppc, ?_, ?_⟩
  · rw [h32]
    simp
  · rw [h86, h32, h64]
    simp

/-- Claim C9. For every initial macro environment, after `config.h` `HAVE_POSIX_SOCKETS` is
undefined, and so are the socket primitives `HAVE_SOCKET`, `HAVE_CONNECT`, `HAVE_BIND`,
`HAVE_LISTEN`, `HAVE_ACCEPT`, `HAVE_SEND` and `HAVE_RECV`; hence whenever
`HAVE_POSIX_SOCKETS` is defined, all seven are (it never is). -/
theorem posix_sockets_prerequisites (env : MacroEnv) :
    processConfigH env "HAVE_POSIX_SOCKETS" = none ∧
    (∀ n ∈ socketPrimitives, processConfigH env n = none) ∧
    ((processConfigH env "HAVE_POSIX_SOCKETS").isSome = true →
      ∀ n ∈ socketPrimitives, (processConfigH env n).isSome = true) := by
  have hps : processConfigH env "HAVE_POSIX_SOCKETS" = none :=
    verdict_fixed_sound configH _ _ (by decide) env
  refine ⟨hps, ?_, ?_⟩
  · exact fun n hn => verdict_fixed_sound configH n _ (socketPrimitives_verdict n hn) env
  · intro hs
    rw [hps] at hs
    simp at hs

/-- Claim C10, as stated, fails: the registered original `__libc_lock_t` and the unregistered
name `gl_lock_t` are different names that resolve to the same name `gl_lock_t`. -/
theorem resolveAlias_not_injective :
    ¬ (∀ a b : String, resolveAlias a = resolveAlias b → a = b) := by
  intro h
  have hab : resolveAlias "__libc_lock_t" = resolveAlias "gl_lock_t" := by decide
  exact absurd (h "__libc_lock_t" "gl_lock_t" hab) (by decide)

/-- Claim C10, amended. For every two names with equal resolutions, either they are the same
name, or one of them is a registered original and the other is its alias. -/
theorem resolveAlias_injective_up_to_alias (a b : String)
    (h : resolveAlias a = resolveAlias b) :
    a = b ∨ (a ∈ aliasOriginals ∧ resolveAlias a = b) ∨
      (b ∈ aliasOriginals ∧ resolveAlias b = a) := by
  by_cases ha : a ∈ aliasOriginals
  · by_cases hb : b ∈ aliasOriginals
    · exact Or.inl (List.inj_on_of_nodup_map
        (by rw [resolveAlias_originals]; exact aliasTargets_nodup) ha hb h)
    · rw [resolveAlias_unregistered b hb] at h
      exact Or.inr (Or.inl ⟨ha, h⟩)
  · by_cases hb : b ∈ aliasOriginals
    · rw [resolveAlias_unregistered a ha] at h
      exact Or.inr (Or.inr ⟨hb, h.symm⟩)
    · rw [resolveAlias_unregistered a ha, resolveAlias_unregistered b hb] at h
      exact Or.inl h

/-- Witness for the amended C10 at the original of line 826 and its alias: they resolve to
the same name, and the first is registered with the second as its alias. -/
theorem resolveAlias_injective_up_to_alias_witness :
    resolveAlias "__libc_lock_t" = resolveAlias "gl_lock_t" ∧
      ("__libc_lock_t" = "gl_lock_t" ∨
        ("__libc_lock_t" ∈ aliasOriginals ∧ resolveAlias "__libc_lock_t" = "gl_lock_t") ∨
        ("gl_lock_t" ∈ aliasOriginals ∧ resolveAlias "gl_lock_t" = "__libc_lock_t")) :=
  ⟨by decide, resolveAlias_injective_up_to_alias "__libc_lock_t" "gl_lock_t" (by decide)⟩

/-! ## Names decided inside conditional blocks -/

theorem verdict_untouched_of_not_mem : ∀ (ds : List Directive) (n : String),
    n ∉ targetsList ds → verdict ds n = .untouched
  | [], n, _ => by simp [verdict]
  | d :: ds, n, h => by
    have h1 : n ∉ d.targets := fun hm => h (by simp [targetsList, hm])
    have h2 : n ∉ targetsList ds := fun hm => h (by simp [targetsList, hm])
    simp only [verdict, verdict_untouched_of_not_mem ds n h2]
    cases d with
    | undefine m =>
      have hne : n ≠ m := by simpa [Directive.targets] using h1
      simp [Directive.verdict, hne]
    | define m b =>
      have hne : n ≠ m := by simpa [Directive.targets] using h1
      simp [Directive.verdict, hne]
    | ifBlock c thn els =>
      have hm : n ∉ targetsList thn ++ targetsList els := by simpa [Directive.targets] using h1
      simp [Directive.verdict, hm]

theorem lastTouch_none_not_mem : ∀ (ds : List Directive) (n : String),
    lastTouch ds n = none → n ∉ targetsList ds
  | [], n, _ => by simp [targetsList]
  | d :: ds, n, h => by
    simp only [lastTouch] at h
    cases hl : lastTouch ds n with
    | some r => rw [hl] at h; simp at h
    | none =>
      rw [hl] at h
      have hd : n ∉ d.targets := by
        by_cases hm : n ∈ d.targets
        · simp [hm] at h
        · exact hm
      simp [targetsList, hd, lastTouch_none_not_mem ds n hl]

/-- The binding of a name after a sequence is the one its last targeting directive leaves. -/
theorem lastTouch_sound : ∀ (ds : List Directive) (n : String) (pre : List Directive)
    (d : Directive), lastTouch ds n = some (pre, d) →
    ∀ env : MacroEnv, runList ds env n = d.run (runList pre env) n
  | [], n, pre, d, h, env => by simp [lastTouch] at h
  | d0 :: ds, n, pre, d, h, env => by
    simp only [lastTouch] at h
    cases hl : lastTouch ds n with
    | some r =>
      obtain ⟨pre', d'⟩ := r
      rw [hl] at h
      simp only [Option.some.injEq, Prod.mk.injEq] at h
      obtain ⟨h1, h2⟩ := h
      subst h1 h2
      simp only [runList]
      exact lastTouch_sound ds n pre' d' hl (d0.run env)
    | none =>
      rw [hl] at h
      by_cases hm : n ∈ d0.targets
      · simp only [hm, if_true, Option.some.injEq, Prod.mk.injEq] at h
        obtain ⟨h1, h2⟩ := h
        subst h1 h2
        simp only [runList]
        exact runList_frame ds _ n (lastTouch_none_not_mem ds n hl)
      · simp [hm] at h

/-- A guard of the form `#ifndef X` / `#undef X` / `#endif` leaves `X` as it was. -/
theorem guard_undef_run (x : String) (env : MacroEnv) :
    (Directive.ifBlock (.notDefined x) [.undefine x] []).run env x = env x := by
  simp only [Directive.run, runList, Cond.holds]
  split
  · rename_i h
    rw [bind_same]
    exact (Option.isNone_iff_eq_none.1 h).symm
  · rfl

/-- A guard of the form `#ifndef X` / `#define X b` / `#endif` keeps a binding of `X` and
installs `b` when there is none. -/
theorem guard_define_run (x b : String) (env : MacroEnv) :
    (Directive.ifBlock (.notDefined x) [.define x b] []).run env x = some ((env x).getD b) := by
  simp only [Directive.run, runList, Cond.holds]
  split
  · rename_i h
    rw [bind_same, Option.isNone_iff_eq_none.1 h]
    rfl
  · rename_i h
    cases hx : env x with
    | none => simp [hx] at h
    | some v => rfl

theorem guard_undef_final (x : String) (pre : List Directive)
    (hl : lastTouch configH x = some (pre, .ifBlock (.notDefined x) [.undefine x] []))
    (hp : verdict pre x = .untouched) (env : MacroEnv) :
    processConfigH env x = env x := by
  rw [processConfigH, lastTouch_sound _ _ _ _ hl env, guard_undef_run,
    verdict_untouched_sound pre x hp env]

theorem guard_define_final (x b : String) (pre : List Directive)
    (hl : lastTouch configH x = some (pre, .ifBlock (.notDefined x) [.define x b] []))
    (hp : verdict pre x = .untouched) (env : MacroEnv) :
    processConfigH env x = some ((env x).getD b) := by
  rw [processConfigH, lastTouch_sound _ _ _ _ hl env, guard_define_run,
    verdict_untouched_sound pre x hp env]

/-- Lines 632-634 leave `SIZE_MAX` as it was. -/
theorem final_SIZE_MAX (env : MacroEnv) : processConfigH env "SIZE_MAX" = env "SIZE_MAX" :=
  guard_undef_final "SIZE_MAX" (configH.take 203) (by rfl) (by decide) env

/-- Lines 669-671 leave `_ALL_SOURCE` as it was. -/
theorem final_ALL_SOURCE (env : MacroEnv) :
    processConfigH env "_ALL_SOURCE" = env "_ALL_SOURCE" :=
  guard_undef_final "_ALL_SOURCE" (configH.take 212) (by rfl) (by decide) env

/-- Lines 673-675 keep a binding of `_GNU_SOURCE` and install the empty body otherwise. -/
theorem final_GNU_SOURCE (env : MacroEnv) :
    processConfigH env "_GNU_SOURCE" = some ((env "_GNU_SOURCE").getD "") :=
  guard_define_final "_GNU_SOURCE" "" (configH.take 213) (by rfl) (by decide) env

/-- Lines 677-679 leave `_POSIX_PTHREAD_SEMANTICS` as it was. -/
theorem final_POSIX_PTHREAD_SEMANTICS (env : MacroEnv) :
    processConfigH env "_POSIX_PTHREAD_SEMANTICS" = env "_POSIX_PTHREAD_SEMANTICS" :=
  guard_undef_final "_POSIX_PTHREAD_SEMANTICS" (configH.take 214) (by rfl) (by decide) env

/-- Lines 681-683 leave `_TANDEM_SOURCE` as it was. -/
theorem final_TANDEM_SOURCE (env : MacroEnv) :
    processConfigH env "_TANDEM_SOURCE" = env "_TANDEM_SOURCE" :=
  guard_undef_final "_TANDEM_SOURCE" (configH.take 215) (by rfl) (by decide) env

/-- Lines 685-687 leave `__EXTENSIONS__` as it was. -/
theorem final_EXTENSIONS (env : MacroEnv) :
    processConfigH env "__EXTENSIONS__" = env "__EXTENSIONS__" :=
  guard_undef_final "__EXTENSIONS__" (configH.take 216) (by rfl) (by decide) env

/-- Lines 779-781 keep a binding of `_DARWIN_USE_64_BIT_INODE` and install `1` otherwise. -/
theorem final_DARWIN_USE_64_BIT_INODE (env : MacroEnv) :
    processConfigH env "_DARWIN_USE_64_BIT_INODE" =
      some ((env "_DARWIN_USE_64_BIT_INODE").getD "1") :=
  guard_define_final "_DARWIN_USE_64_BIT_INODE" "1" (configH.take 243) (by rfl) (by decide) env

/-- Lines 810-812 undefine `inline` unless `__cplusplus` is defined. -/
theorem final_inline (env : MacroEnv) :
    processConfigH env "inline" =
      if (env "__cplusplus").isNone then none else env "inline" := by
  have hl : lastTouch configH "inline" =
      some (configH.take 252, .ifBlock (.notDefined "__cplusplus") [.undefine "inline"] []) := by
    rfl
  have h1 : runList (configH.take 252) env "__cplusplus" = env "__cplusplus" :=
    verdict_untouched_sound _ _ (by decide) env
  have h2 : runList (configH.take 252) env "inline" = env "inline" :=
    verdict_untouched_sound _ _ (by decide) env
  rw [processConfigH, lastTouch_sound _ _ _ _ hl env]
  generalize runList (configH.take 252) env = reached at h1 h2
  simp only [Directive.run, runList, Cond.holds, h1]
  split
  · exact bind_same _ _ _
  · exact h2

theorem runList_cons (d : Directive) (ds : List Directive) (env : MacroEnv) :
    runList (d :: ds) env = runList ds (d.run env) := by
  simp only [runList]

/-- `__cplusplus` is not targeted by the header. -/
theorem final_cplusplus (env : MacroEnv) :
    processConfigH env "__cplusplus" = env "__cplusplus" :=
  verdict_untouched_sound configH _ (by decide) env

/-- When the block of lines 768-776 is reached, `AC_APPLE_UNIVERSAL_BUILD` is undefined. -/
theorem universal_build_undefined (env : MacroEnv) :
    runList beforeWordsBigendian env "AC_APPLE_UNIVERSAL_BUILD" = none :=
  verdict_fixed_sound beforeWordsBigendian _ _ (by decide) env

/-- The block of lines 768-776 leaves `WORDS_BIGENDIAN` as it was. -/
theorem final_WORDS_BIGENDIAN (env : MacroEnv) :
    processConfigH env "WORDS_BIGENDIAN" = env "WORDS_BIGENDIAN" := by
  have hpost : "WORDS_BIGENDIAN" ∉ targetsList afterWordsBigendian :=
    (List.nodup_cons.1 (List.nodup_append.1 targets_nodup_up_to_wordsBigendian).2.1).1
  have hpre : "WORDS_BIGENDIAN" ∉ targetsList beforeWordsBigendian := fun hm =>
    (List.nodup_append.1 targets_nodup_up_to_wordsBigendian).2.2 hm (List.mem_cons_self _ _)
  have hac := universal_build_undefined env
  have hwb := runList_frame beforeWordsBigendian env _ hpre
  rw [processConfigH, configH_split, runList_append, runList_cons,
    runList_frame _ _ _ hpost]
  generalize runList beforeWordsBigendian env = reached at hac hwb
  have hg := guard_undef_run "WORDS_BIGENDIAN" reached
  simp only [Directive.run, runList, Cond.holds] at hg
  simp only [wordsBigendianBlock, Directive.run, runList, Cond.holds, hac, Option.isSome_none]
  rw [if_neg (by simp), hg]
  exact hwb

/-- Every name other than `WORDS_BIGENDIAN` is targeted by at most one directive. -/
theorem targets_count_le_one (n : String) (hn : n ≠ "WORDS_BIGENDIAN") :
    (targetsList configH).count n ≤ 1 := by
  have hk := List.nodup_iff_count_le_one.1 targets_nodup_up_to_wordsBigendian n
  have hne : ("WORDS_BIGENDIAN" == n) = false := by
    simpa using fun h : "WORDS_BIGENDIAN" = n => hn h.symm
  rw [targets_configH]
  simp only [List.count_append, List.count_cons, hne] at hk ⊢
  simpa using hk

/-- A setting made outside the blocks for a name with no other directive is final. -/
theorem verdict_of_top_setting : ∀ (ds : List Directive) (p : String × Option String),
    p ∈ topSettings ds → (targetsList ds).count p.1 ≤ 1 → verdict ds p.1 = .fixed p.2
  | [], p, h, _ => by simp [topSettings] at h
  | .undefine m :: ds, p, h, hc => by
    simp only [topSettings, List.mem_cons] at h
    simp only [targetsList, Directive.targets, List.count_append, List.count_cons,
      List.count_nil] at hc
    rcases h with h | h
    · subst h
      have h0 : (targetsList ds).count m = 0 := by
        simp only [beq_self_eq_true, if_true] at hc
        omega
      simp [verdict, verdict_untouched_of_not_mem ds m (List.count_eq_zero.1 h0),
        Directive.verdict]
    · have := verdict_of_top_setting ds p h (by omega)
      simp [verdict, this]
  | .define m b :: ds, p, h, hc => by
    simp only [topSettings, List.mem_cons] at h
    simp only [targetsList, Directive.targets, List.count_append, List.count_cons,
      List.count_nil] at hc
    rcases h with h | h
    · subst h
      have h0 : (targetsList ds).count m = 0 := by
        simp only [beq_self_eq_true, if_true] at hc
        omega
      simp [verdict, verdict_untouched_of_not_mem ds m (List.count_eq_zero.1 h0),
        Directive.verdict]
    · have := verdict_of_top_setting ds p h (by omega)
      simp [verdict, this]
  | .ifBlock c thn els :: ds, p, h, hc => by
    simp only [topSettings] at h
    simp only [targetsList, List.count_append] at hc
    have := verdict_of_top_setting ds p h (by omega)
    simp [verdict, this]

theorem topSettings_not_wordsBigendian :
    ∀ p ∈ topSettings configH, p.1 ≠ "WORDS_BIGENDIAN" := by
  decide!

/-- Every setting the header makes outside its conditional blocks is final. -/
theorem topSettings_verdict :
    ∀ p ∈ topSettings configH, verdict configH p.1 = .fixed p.2 := fun p hp =>
  verdict_of_top_setting configH p hp
    (targets_count_le_one p.1 (topSettings_not_wordsBigendian p hp))

theorem targets_top_or_block : ∀ (ds : List Directive) (n : String),
    n ∈ targetsList ds → n ∈ (topSettings ds).map Prod.fst ∨ n ∈ blockTargets ds
  | [], n, h => by simp [targetsList] at h
  | .undefine m :: ds, n, h => by
    simp only [targetsList, Directive.targets, List.mem_append, List.mem_singleton] at h
    rcases h with h | h
    · simp [topSettings, h]
    · rcases targets_top_or_block ds n h with h' | h'
      · exact Or.inl (by simp only [topSettings, List.map_cons, List.mem_cons]; exact Or.inr h')
      · exact Or.inr (by simpa only [blockTargets] using h')
  | .define m b :: ds, n, h => by
    simp only [targetsList, Directive.targets, List.mem_append, List.mem_singleton] at h
    rcases h with h | h
    · simp [topSettings, h]
    · rcases targets_top_or_block ds n h with h' | h'
      · exact Or.inl (by simp only [topSettings, List.map_cons, List.mem_cons]; exact Or.inr h')
      · exact Or.inr (by simpa only [blockTargets] using h')
  | .ifBlock c thn els :: ds, n, h => by
    simp only [targetsList, Directive.targets, List.mem_append] at h
    rcases h with h | h
    · exact Or.inr (by simp only [blockTargets, List.mem_append]; exact Or.inl h)
    · rcases targets_top_or_block ds n h with h' | h'
      · exact Or.inl (by simpa only [topSettings] using h')
      · exact Or.inr (by simp only [blockTargets, List.mem_append]; exact Or.inr h')

theorem blockTargets_configH :
    blockTargets configH =
      ["SIZE_MAX", "_ALL_SOURCE", "_GNU_SOURCE", "_POSIX_PTHREAD_SEMANTICS", "_TANDEM_SOURCE",
       "__EXTENSIONS__", "WORDS_BIGENDIAN", "WORDS_BIGENDIAN", "_DARWIN_USE_64_BIT_INODE",
       "inline"] := by
  decide!

theorem guardedNames_targeted : ∀ n ∈ guardedNames, n ∈ targetsList configH := by
  decide!

/-- Each guarded name ends differently from the empty environment and from the one in which
every name is defined. -/
theorem guardedNames_differ :
    ∀ n ∈ guardedNames, processConfigH emptyEnv n ≠ processConfigH allDefinedEnv n := by
  intro n hn
  rw [guardedNames] at hn
  rcases List.mem_cons.1 hn with rfl | hn
  · rw [final_SIZE_MAX, final_SIZE_MAX]; decide
  rcases List.mem_cons.1 hn with rfl | hn
  · rw [final_ALL_SOURCE, final_ALL_SOURCE]; decide
  rcases List.mem_cons.1 hn with rfl | hn
  · rw [final_GNU_SOURCE, final_GNU_SOURCE]; decide
  rcases List.mem_cons.1 hn with rfl | hn
  · rw [final_POSIX_PTHREAD_SEMANTICS, final_POSIX_PTHREAD_SEMANTICS]; decide
  rcases List.mem_cons.1 hn with rfl | hn
  · rw [final_TANDEM_SOURCE, final_TANDEM_SOURCE]; decide
  rcases List.mem_cons.1 hn with rfl | hn
  · rw [final_EXTENSIONS, final_EXTENSIONS]; decide
  rcases List.mem_cons.1 hn with rfl | hn
  · rw [final_WORDS_BIGENDIAN, final_WORDS_BIGENDIAN]; decide
  rcases List.mem_cons.1 hn with rfl | hn
  · rw [final_DARWIN_USE_64_BIT_INODE, final_DARWIN_USE_64_BIT_INODE]; decide
  rcases List.mem_cons.1 hn with rfl | hn
  · rw [final_inline, final_inline]; decide
  · simp at hn

/-! ## The claims, continued -/

/-- Claim C11. For every initial macro environment, `AC_APPLE_UNIVERSAL_BUILD` is undefined
when the block of lines 768-776 is reached (line 4 undefines it), so `config.h` leaves
`WORDS_BIGENDIAN` exactly as it found it: defined after if and only if defined before, with
the same body.  This holds in particular with `AC_APPLE_UNIVERSAL_BUILD` and `__BIG_ENDIAN__`
predefined, and from an environment without `WORDS_BIGENDIAN` the result has it undefined,
beside `LSB_FIRST` defined as `1`. -/
theorem wordsBigendian_never_changed (env : MacroEnv) :
    runList beforeWordsBigendian env "AC_APPLE_UNIVERSAL_BUILD" = none ∧
    processConfigH env "WORDS_BIGENDIAN" = env "WORDS_BIGENDIAN" ∧
    ((processConfigH env "WORDS_BIGENDIAN").isSome = (env "WORDS_BIGENDIAN").isSome) ∧
    processConfigH appleUniversalEnv "WORDS_BIGENDIAN" = none ∧
    (env "WORDS_BIGENDIAN" = none →
      processConfigH env "WORDS_BIGENDIAN" = none ∧
        processConfigH env "LSB_FIRST" = some "1") := by
  have h := final_WORDS_BIGENDIAN env
  refine ⟨universal_build_undefined env, h, by rw [h], ?_, ?_⟩
  · rw [final_WORDS_BIGENDIAN]
    decide
  · intro h0
    exact ⟨h.trans h0, verdict_fixed_sound configH _ _ (by decide) env⟩

/-- Claim C12. The names `config.h` sets outside its conditional blocks end with the same
definedness and body from any two initial environments; the names targeted inside the
blocks are exactly the nine guarded names; every name the header targets is of one kind or
the other; each guarded name does end differently from two suitable environments; so among
the names the header targets, those that can differ are exactly the guarded ones. -/
theorem resolved_independent_of_environment :
    (∀ (e1 e2 : MacroEnv), ∀ n ∈ (topSettings configH).map Prod.fst,
      processConfigH e1 n = processConfigH e2 n) ∧
    (∀ n, n ∈ blockTargets configH ↔ n ∈ guardedNames) ∧
    (∀ n ∈ targetsList configH,
      n ∈ (topSettings configH).map Prod.fst ∨ n ∈ guardedNames) ∧
    (∀ n ∈ guardedNames, processConfigH emptyEnv n ≠ processConfigH allDefinedEnv n) ∧
    (∀ n ∈ targetsList configH,
      (∃ e1 e2 : MacroEnv, processConfigH e1 n ≠ processConfigH e2 n) ↔ n ∈ guardedNames) := by
  have htop : ∀ (e1 e2 : MacroEnv), ∀ n ∈ (topSettings configH).map Prod.fst,
      processConfigH e1 n = processConfigH e2 n := by
    intro e1 e2 n hn
    obtain ⟨p, hp, rfl⟩ := List.mem_map.1 hn
    have hv := topSettings_verdict p hp
    exact (verdict_fixed_sound configH _ _ hv e1).trans (verdict_fixed_sound configH _ _ hv e2).symm
  have hblk : ∀ n, n ∈ blockTargets configH ↔ n ∈ guardedNames := by
    intro n
    rw [blockTargets_configH]
    simp only [guardedNames, List.mem_cons, List.mem_singleton, List.not_mem_nil, or_false]
    tauto
  have hsplit : ∀ n ∈ targetsList configH,
      n ∈ (topSettings configH).map Prod.fst ∨ n ∈ guardedNames := by
    intro n hn
    rcases targets_top_or_block configH n hn with h | h
    · exact Or.inl h
    · exact Or.inr ((hblk n).1 h)
  refine ⟨htop, hblk, hsplit, guardedNames_differ, ?_⟩
  intro n hn
  constructor
  · rintro ⟨e1, e2, hne⟩
    rcases hsplit n hn with h | h
    · exact absurd (htop e1 e2 n h) hne
    · exact h
  · intro hg
    exact ⟨emptyEnv, allDefinedEnv, guardedNames_differ n hg⟩

/-! ## Processing the header a second time -/

theorem bind_eq_self (env : MacroEnv) (n : String) (v : Option String) (h : env n = v) :
    env.bind n v = env := by
  funext m
  by_cases hm : m = n
  · subst hm
    rw [bind_same, h]
  · exact bind_other env n m v hm

mutual
/-- A settled directive changes nothing. -/
theorem Directive.settled_run : ∀ (d : Directive) (env : MacroEnv),
    d.settled env = true → d.run env = env
  | .undefine n, env, h => by
    simp only [Directive.settled, Option.isNone_iff_eq_none] at h
    simp only [Directive.run]
    exact bind_eq_self env n none h
  | .define n b, env, h => by
    simp only [Directive.settled, decide_eq_true_eq] at h
    simp only [Directive.run]
    exact bind_eq_self env n (some b) h
  | .ifBlock c thn els, env, h => by
    simp only [Directive.settled] at h
    simp only [Directive.run]
    by_cases hc : c.holds env = true
    · rw [if_pos hc] at h ⊢
      exact settledList_run thn env h
    · rw [if_neg hc] at h ⊢
      exact settledList_run els env h
/-- A settled sequence changes nothing. -/
theorem settledList_run : ∀ (ds : List Directive) (env : MacroEnv),
    settledList ds env = true → runList ds env = env
  | [], env, _ => by simp only [runList]
  | d :: ds, env, h => by
    simp only [settledList, Bool.and_eq_true] at h
    simp only [runList]
    rw [Directive.settled_run d env h.1]
    exact settledList_run ds env h.2
end

mutual
/-- In a settled directive every executed `#define` finds its own body in force. -/
theorem Directive.settled_events : ∀ (d : Directive) (env : MacroEnv),
    d.settled env = true → ∀ ev ∈ d.defineEvents env, ev.2.1 = some ev.2.2
  | .undefine n, env, _ => by simp [Directive.defineEvents]
  | .define n b, env, h => by
    simp only [Directive.settled, decide_eq_true_eq] at h
    simp [Directive.defineEvents, h]
  | .ifBlock c thn els, env, h => by
    simp only [Directive.settled] at h
    simp only [Directive.defineEvents]
    by_cases hc : c.holds env = true
    · rw [if_pos hc] at h ⊢
      exact settledList_events thn env h
    · rw [if_neg hc] at h ⊢
      exact settledList_events els env h
/-- In a settled sequence every executed `#define` finds its own body in force. -/
theorem settledList_events : ∀ (ds : List Directive) (env : MacroEnv),
    settledList ds env = true → ∀ ev ∈ defineEventsList ds env, ev.2.1 = some ev.2.2
  | [], env, _ => by simp [defineEventsList]
  | d :: ds, env, h => by
    simp only [settledList, Bool.and_eq_true] at h
    simp only [defineEventsList, List.mem_append]
    rw [Directive.settled_run d env h.1]
    intro ev hev
    rcases hev with hev | hev
    · exact Directive.settled_events d env h.1 ev hev
    · exact settledList_events ds env h.2 ev hev
end

theorem settledList_of_forall : ∀ (ds : List Directive) (env : MacroEnv),
    (∀ d ∈ ds, d.settled env = true) → settledList ds env = true
  | [], env, _ => by simp only [settledList]
  | d :: ds, env, h => by
    simp only [settledList, Bool.and_eq_true]
    exact ⟨h d (List.mem_cons_self _ _),
      settledList_of_forall ds env (fun d' hd' => h d' (List.mem_cons_of_mem _ hd'))⟩

/-- In a settled sequence every `#define` outside the blocks is executed and finds its own
body in force. -/
theorem settledList_topDefines : ∀ (ds : List Directive) (env : MacroEnv),
    settledList ds env = true →
    ∀ p ∈ topDefines ds, (p.1, some p.2, p.2) ∈ defineEventsList ds env
  | [], env, _, p, hp => by simp [topDefines] at hp
  | .undefine m :: ds, env, h, p, hp => by
    simp only [settledList, Bool.and_eq_true] at h
    simp only [topDefines] at hp
    simp only [defineEventsList, List.mem_append]
    rw [Directive.settled_run _ env h.1]
    exact Or.inr (settledList_topDefines ds env h.2 p hp)
  | .define m b :: ds, env, h, p, hp => by
    simp only [settledList, Bool.and_eq_true] at h
    have hb : env m = some b := by
      simpa only [Directive.settled, decide_eq_true_eq] using h.1
    simp only [topDefines, List.mem_cons] at hp
    simp only [defineEventsList, List.mem_append]
    rw [Directive.settled_run _ env h.1]
    rcases hp with hp | hp
    · subst hp
      exact Or.inl (by simp [Directive.defineEvents, hb])
    · exact Or.inr (settledList_topDefines ds env h.2 p hp)
  | .ifBlock c thn els :: ds, env, h, p, hp => by
    simp only [settledList, Bool.and_eq_true] at h
    simp only [topDefines] at hp
    simp only [defineEventsList, List.mem_append]
    rw [Directive.settled_run _ env h.1]
    exact Or.inr (settledList_topDefines ds env h.2 p hp)

theorem mem_topSettings_of_undefine : ∀ (ds : List Directive) (n : String),
    Directive.undefine n ∈ ds → (n, none) ∈ topSettings ds
  | [], n, h => by simp at h
  | .undefine m :: ds, n, h => by
    simp only [List.mem_cons, Directive.undefine.injEq] at h
    simp only [topSettings, List.mem_cons, Prod.mk.injEq, and_true]
    exact h.imp id (mem_topSettings_of_undefine ds n)
  | .define m b :: ds, n, h => by
    have h := (List.mem_cons.1 h).resolve_left (fun he => by cases he)
    simp only [topSettings, List.mem_cons, Prod.mk.injEq]
    exact Or.inr (mem_topSettings_of_undefine ds n h)
  | .ifBlock c thn els :: ds, n, h => by
    have h := (List.mem_cons.1 h).resolve_left (fun he => by cases he)
    simp only [topSettings]
    exact mem_topSettings_of_undefine ds n h

theorem mem_topSettings_of_define : ∀ (ds : List Directive) (n b : String),
    Directive.define n b ∈ ds → (n, some b) ∈ topSettings ds
  | [], n, b, h => by simp at h
  | .undefine m :: ds, n, b, h => by
    have h := (List.mem_cons.1 h).resolve_left (fun he => by cases he)
    simp only [topSettings, List.mem_cons]
    exact Or.inr (mem_topSettings_of_define ds n b h)
  | .define m b' :: ds, n, b, h => by
    simp only [List.mem_cons, Directive.define.injEq] at h
    simp only [topSettings, List.mem_cons, Prod.mk.injEq, Option.some.injEq]
    exact h.imp id (mem_topSettings_of_define ds n b)
  | .ifBlock c thn els :: ds, n, b, h => by
    have h := (List.mem_cons.1 h).resolve_left (fun he => by cases he)
    simp only [topSettings]
    exact mem_topSettings_of_define ds n b h

theorem mem_topBlocks_of_ifBlock : ∀ (ds : List Directive) (c : Cond)
    (thn els : List Directive),
    Directive.ifBlock c thn els ∈ ds → (c, thn, els) ∈ topBlocks ds
  | [], c, thn, els, h => by simp at h
  | .undefine m :: ds, c, thn, els, h => by
    have h := (List.mem_cons.1 h).resolve_left (fun he => by cases he)
    simp only [topBlocks]
    exact mem_topBlocks_of_ifBlock ds c thn els h
  | .define m b :: ds, c, thn, els, h => by
    have h := (List.mem_cons.1 h).resolve_left (fun he => by cases he)
    simp only [topBlocks]
    exact mem_topBlocks_of_ifBlock ds c thn els h
  | .ifBlock c' thn' els' :: ds, c, thn, els, h => by
    simp only [List.mem_cons, Directive.ifBlock.injEq] at h
    simp only [topBlocks, List.mem_cons, Prod.mk.injEq]
    exact h.imp id (mem_topBlocks_of_ifBlock ds c thn els)

/-- The nine conditional blocks of the header. -/
theorem topBlocks_configH :
    topBlocks configH =
      [(.notDefined "SIZE_MAX", [.undefine "SIZE_MAX"], []),
       (.notDefined "_ALL_SOURCE", [.undefine "_ALL_SOURCE"], []),
       (.notDefined "_GNU_SOURCE", [.define "_GNU_SOURCE" ""], []),
       (.notDefined "_POSIX_PTHREAD_SEMANTICS", [.undefine "_POSIX_PTHREAD_SEMANTICS"], []),
       (.notDefined "_TANDEM_SOURCE", [.undefine "_TANDEM_SOURCE"], []),
       (.notDefined "__EXTENSIONS__", [.undefine "__EXTENSIONS__"], []),
       (.isDefined "AC_APPLE_UNIVERSAL_BUILD",
         [.ifBlock (.isDefined "__BIG_ENDIAN__") [.define "WORDS_BIGENDIAN" "1"] []],
         [.ifBlock (.notDefined "WORDS_BIGENDIAN") [.undefine "WORDS_BIGENDIAN"] []]),
       (.notDefined "_DARWIN_USE_64_BIT_INODE", [.define "_DARWIN_USE_64_BIT_INODE" "1"], []),
       (.notDefined "__cplusplus", [.undefine "inline"], [])] := by
  rfl

/-- A guard `#ifndef X` / `#undef X` / `#endif` is settled in every environment. -/
theorem guard_undef_settled (x : String) (env : MacroEnv) :
    (Directive.ifBlock (.notDefined x) [.undefine x] []).settled env = true := by
  simp only [Directive.settled, settledList, Cond.holds]
  split
  · rename_i h
    simp [h]
  · rfl

/-- A guard `#ifndef X` / `#define X b` / `#endif` is settled once `X` is defined. -/
theorem guard_define_settled (x b : String) (env : MacroEnv) (h : (env x).isSome = true) :
    (Directive.ifBlock (.notDefined x) [.define x b] []).settled env = true := by
  simp only [Directive.settled, settledList, Cond.holds]
  cases hx : env x with
  | none => simp [hx] at h
  | some v => simp

/-- After the header has been processed once, each of its nine blocks is settled. -/
theorem topBlocks_settled (env : MacroEnv) :
    ∀ t ∈ topBlocks configH,
      (Directive.ifBlock t.1 t.2.1 t.2.2).settled (processConfigH env) = true := by
  intro t ht
  rw [topBlocks_configH] at ht
  -- lines 632-634
  rcases List.mem_cons.1 ht with rfl | ht
  · exact guard_undef_settled "SIZE_MAX" _
  -- lines 669-671
  rcases List.mem_cons.1 ht with rfl | ht
  · exact guard_undef_settled "_ALL_SOURCE" _
  -- lines 673-675
  rcases List.mem_cons.1 ht with rfl | ht
  · exact guard_define_settled "_GNU_SOURCE" "" _ (by rw [final_GNU_SOURCE]; rfl)
  -- lines 677-679
  rcases List.mem_cons.1 ht with rfl | ht
  · exact guard_undef_settled "_POSIX_PTHREAD_SEMANTICS" _
  -- lines 681-683
  rcases List.mem_cons.1 ht with rfl | ht
  · exact guard_undef_settled "_TANDEM_SOURCE" _
  -- lines 685-687
  rcases List.mem_cons.1 ht with rfl | ht
  · exact guard_undef_settled "__EXTENSIONS__" _
  -- lines 768-776
  rcases List.mem_cons.1 ht with rfl | ht
  · have hac : processConfigH env "AC_APPLE_UNIVERSAL_BUILD" = none :=
      verdict_fixed_sound configH _ _ (by decide) env
    have hg := guard_undef_settled "WORDS_BIGENDIAN" (processConfigH env)
    simp only [Directive.settled, settledList, Cond.holds, hac, Option.isSome_none,
      Bool.and_true] at hg ⊢
    rw [if_neg (by simp)]
    exact hg
  -- lines 779-781
  rcases List.mem_cons.1 ht with rfl | ht
  · exact guard_define_settled "_DARWIN_USE_64_BIT_INODE" "1" _
      (by rw [final_DARWIN_USE_64_BIT_INODE]; rfl)
  -- lines 810-812
  rcases List.mem_cons.1 ht with rfl | ht
  · simp only [Directive.settled, settledList, Cond.holds, final_cplusplus, final_inline]
    split
    · rename_i h
      simp [h]
    · rfl
  · simp at ht

/-- After the header has been processed once, every directive of it is settled. -/
theorem configH_settled (env : MacroEnv) : settledList configH (processConfigH env) = true := by
  apply settledList_of_forall
  intro d hd
  cases d with
  | undefine n =>
    have hv := topSettings_verdict _ (mem_topSettings_of_undefine configH n hd)
    have hn : processConfigH env n = none := verdict_fixed_sound configH _ _ hv env
    simp [Directive.settled, hn]
  | define n b =>
    have hv := topSettings_verdict _ (mem_topSettings_of_define configH n b hd)
    have hn : processConfigH env n = some b := verdict_fixed_sound configH _ _ hv env
    simp [Directive.settled, hn]
  | ifBlock c thn els =>
    exact topBlocks_settled env (c, thn, els) (mem_topBlocks_of_ifBlock configH c thn els hd)

/-- Claim C13. The header is not wrapped in an include guard (it is a sequence of 294
directives and blocks), yet for every initial macro environment processing it a second time
yields exactly the environment the first pass produced; on the second pass every `#define`
that is executed finds its name bound to the very body it installs, and every `#define`
outside the conditional blocks is executed so. -/
theorem processing_idempotent (env : MacroEnv) :
    configH.length = 294 ∧
    processConfigH (processConfigH env) = processConfigH env ∧
    (∀ ev ∈ defineEventsList configH (processConfigH env), ev.2.1 = some ev.2.2) ∧
    (∀ p ∈ topDefines configH,
      (p.1, some p.2, p.2) ∈ defineEventsList configH (processConfigH env)) := by
  have hs := configH_settled env
  refine ⟨by rfl, ?_, settledList_events configH _ hs, settledList_topDefines configH _ hs⟩
  exact settledList_run configH (processConfigH env) hs

/-- Claim C14. For every initial macro environment the sizes recorded after `config.h` are
those of the LP64 data model: `SIZEOF_CHAR` is 1, `SIZEOF_SHORT` 2, `SIZEOF_INT` 4 and
`SIZEOF_LONG`, `SIZEOF_LONG_LONG`, `SIZEOF_VOID_P`, `SIZEOF_SIZE_T`, `SIZEOF_PTRDIFF_T` are
8; so 1 = char ≤ short ≤ int ≤ long ≤ long long, pointer = size_t = ptrdiff_t = long = 8,
and with `ARCH_X86_64` defined, as it always is, the pointer width 8 * `SIZEOF_VOID_P` is
64 bits. -/
theorem sizes_form_lp64 (env : MacroEnv) :
    intValue (processConfigH env) "SIZEOF_CHAR" = some 1 ∧
    intValue (processConfigH env) "SIZEOF_SHORT" = some 2 ∧
    intValue (processConfigH env) "SIZEOF_INT" = some 4 ∧
    intValue (processConfigH env) "SIZEOF_LONG" = some 8 ∧
    intValue (processConfigH env) "SIZEOF_LONG_LONG" = some 8 ∧
    intValue (processConfigH env) "SIZEOF_VOID_P" = some 8 ∧
    intValue (processConfigH env) "SIZEOF_SIZE_T" = some 8 ∧
    intValue (processConfigH env) "SIZEOF_PTRDIFF_T" = some 8 ∧
    (1 = sizeValue (processConfigH env) "SIZEOF_CHAR" ∧
      sizeValue (processConfigH env) "SIZEOF_CHAR" ≤ sizeValue (processConfigH env) "SIZEOF_SHORT" ∧
      sizeValue (processConfigH env) "SIZEOF_SHORT" ≤ sizeValue (processConfigH env) "SIZEOF_INT" ∧
      sizeValue (processConfigH env) "SIZEOF_INT" ≤ sizeValue (processConfigH env) "SIZEOF_LONG" ∧
      sizeValue (processConfigH env) "SIZEOF_LONG" ≤
        sizeValue (processConfigH env) "SIZEOF_LONG_LONG") ∧
    (sizeValue (processConfigH env) "SIZEOF_VOID_P" =
        sizeValue (processConfigH env) "SIZEOF_SIZE_T" ∧
      sizeValue (processConfigH env) "SIZEOF_SIZE_T" =
        sizeValue (processConfigH env) "SIZEOF_PTRDIFF_T" ∧
      sizeValue (processConfigH env) "SIZEOF_PTRDIFF_T" =
        sizeValue (processConfigH env) "SIZEOF_LONG" ∧
      sizeValue (processConfigH env) "SIZEOF_LONG" = 8) ∧
    (processConfigH env "ARCH_X86_64").isSome = true ∧
    ((processConfigH env "ARCH_X86_64").isSome = true →
      8 * sizeValue (processConfigH env) "SIZEOF_VOID_P" = 64) := by
  have hc : processConfigH env "SIZEOF_CHAR" = some "1" :=
    verdict_fixed_sound configH _ _ (by decide) env
  have hs : processConfigH env "SIZEOF_SHORT" = some "2" :=
    verdict_fixed_sound configH _ _ (by decide) env
  have hi : processConfigH env "SIZEOF_INT" = some "4" :=
    verdict_fixed_sound configH _ _ (by decide) env
  have hl : processConfigH env "SIZEOF_LONG" = some "8" :=
    verdict_fixed_sound configH _ _ (by decide) env
  have hll : processConfigH env "SIZEOF_LONG_LONG" = some "8" :=
    verdict_fixed_sound configH _ _ (by decide) env
  have hp : processConfigH env "SIZEOF_VOID_P" = some "8" :=
    verdict_fixed_sound configH _ _ (by decide) env
  have hz : processConfigH env "SIZEOF_SIZE_T" = some "8" :=
    verdict_fixed_sound configH _ _ (by decide) env
  have hd : processConfigH env "SIZEOF_PTRDIFF_T" = some "8" :=
    verdict_fixed_sound configH _ _ (by decide) env
  have ha : processConfigH env "ARCH_X86_64" = some "1" :=
    verdict_fixed_sound configH _ _ (by decide) env
  simp only [intValue, sizeValue, hc, hs, hi, hl, hll, hp, hz, hd, ha]
  decide

end ConfigH
